import Mathlib

/-!
Verification development for the melina-studio backend core:
the tool registry / executor (`internal/llm_handlers/tool_handler.go`),
the provider orchestration loops (`anthropic.go`, `langchain.go`, `gemini.go`),
the Claude streaming-event assembler (`StreamClaudeWithMessages`),
the connection hub (`internal/libraries/websocket.go`), and the
WebSocket message dispatch.

Go maps `map[string]interface{}` are modelled as association lists of a
flat JSON-style value type; machine pointers (`*Hub`, `*Client`) are
modelled by presence flags; Go errors are modelled as `Option String`
holding the message.
-/

namespace Melina

/-- A flat JSON-compatible scalar value, modelling the `interface{}`
values that appear inside tool input / result maps. -/
inductive JVal where
  | vstr (s : String)
  | vbool (b : Bool)
  | vnum (n : Int)
  | vnull
deriving DecidableEq, Repr

/-- A string-keyed map of JSON-compatible values, modelling Go's
`map[string]interface{}` for tool inputs and flat result payloads. -/
def JMap : Type := List (String × JVal)

instance : DecidableEq JMap := by unfold JMap; infer_instance
instance : Repr JMap := by unfold JMap; infer_instance

/-- Key lookup in a `JMap` (Go map indexing: missing key yields `none`,
standing for the nil interface value). -/
def JMap.lookup (m : JMap) (k : String) : Option JVal :=
  (List.find? (fun p => p.1 == k) m).map (fun p => p.2)

/-- Go's `v, _ := m[k].(string)`: the string value when the key holds a
string, and the zero value `""` otherwise (missing key or wrong type). -/
def JMap.getStr (m : JMap) (k : String) : String :=
  match m.lookup k with
  | some (JVal.vstr s) => s
  | _ => ""

/-- Go's `v, _ := m[k].(bool)`: the boolean value when the key holds a
bool, and the zero value `false` otherwise. -/
def JMap.getBool (m : JMap) (k : String) : Bool :=
  match m.lookup k with
  | some (JVal.vbool b) => b
  | _ => false

/-- The success payload a tool handler may return (`interface{}` in Go):
either a flat scalar or a string-keyed map. -/
inductive ToolPayload where
  | scalar (v : JVal)
  | omap (m : JMap)
deriving DecidableEq, Repr

/-- Outcome of invoking a Go tool handler `(ctx, input) -> (result, error)`:
a normal result, a returned error, or a runtime panic raised during the
call (which the executor recovers from). -/
inductive HandlerOutcome where
  | ok (v : ToolPayload)
  | err (msg : String)
  | panicked (msg : String)
deriving DecidableEq, Repr

/-- A tool handler, modelled as a pure function of the input map.
(The Go signature also takes a `context.Context`, used only to thread
the streaming context through to side effects.) -/
def ToolHandler : Type := JMap → HandlerOutcome

/-- The tool registry `toolHandlers : map[string]ToolHandler`, modelled
as its lookup function (`getToolHandler`). -/
def Registry : Type := String → Option ToolHandler

/-- `ToolCall` from tool_handler.go: a generic tool call usable across
providers. -/
structure ToolCall where
  ID : String
  Name : String
  Input : JMap
  Provider : String
deriving DecidableEq, Repr

/-- `StreamingContext` from langchain.go: hub/client pointers are
modelled by a single presence flag (`Client != nil`). -/
structure StreamingContext where
  hasClient : Bool
  BoardId : String
  BufferedChunks : List String
  ShouldStream : Bool
deriving DecidableEq, Repr

/-- `ImageContent` from tool_handler.go. -/
structure ImageContent where
  BoardID : String
  ImageBase64 : String
  Format : String
  MediaType : String
deriving DecidableEq, Repr

/-- `ToolExecutionResult` from tool_handler.go.  The Go zero values of
the `Result`/`Error` fields (nil interfaces) are modelled as `none`. -/
structure ToolExecutionResult where
  ToolCallID : String
  ToolName : String
  Result : Option ToolPayload := none
  Error : Option String := none
  HasImage : Bool := false
  ImageData : Option ImageContent := none
deriving DecidableEq, Repr

instance : Inhabited ToolExecutionResult :=
  ⟨{ ToolCallID := "", ToolName := "" }⟩

/-- The error message synthesized for a call with an empty input map. -/
def emptyInputMsg : String :=
  "tool input was empty (streaming artifact) - please retry with valid parameters"

/-- The loop body of `ExecuteTools` for one call `tc` (each `continue`
branch of the Go loop appends exactly one result, so the body is a
function from the call to its result).  The Go code copies `tc.Input`
into a fresh map before invoking the handler; on an association list
the copy is the identity.  The streaming context is only threaded into
the handler context for side effects, so it does not appear here. -/
def execOneCall (reg : Registry) (tc : ToolCall) : ToolExecutionResult :=
  let result : ToolExecutionResult := { ToolCallID := tc.ID, ToolName := tc.Name }
  -- Handle empty input (streaming artifact) - return error result instead of skipping
  if tc.Input.isEmpty then
    { result with Error := some emptyInputMsg }
  else
    -- Find handler
    match reg tc.Name with
    | none => { result with Error := some ("unknown tool: " ++ tc.Name) }
    | some handler =>
      -- Execute handler with panic recovery
      match handler tc.Input with
      | HandlerOutcome.panicked r =>
        { result with Error := some ("tool execution panicked: " ++ r) }
      | HandlerOutcome.err e =>
        { result with Error := some e }
      | HandlerOutcome.ok v =>
        -- Check if result contains image content
        match v with
        | ToolPayload.omap resultMap =>
          if resultMap.getBool "_imageContent" then
            let format := resultMap.getStr "format"
            let mediaType := if format != "" then "image/" ++ format else "image/png"
            { result with
              Result := some v
              HasImage := true
              ImageData := some
                { BoardID := resultMap.getStr "boardId"
                  ImageBase64 := resultMap.getStr "image"
                  Format := format
                  MediaType := mediaType } }
          else
            { result with Result := some v }
        | _ => { result with Result := some v }

/-- `ExecuteTools` from tool_handler.go: executes a batch of tool calls
and returns results.  The Go loop visits the calls in order and appends
exactly one result per call (every branch ends in `append` + `continue`),
i.e. it is the map of the per-call body over the batch.  `streamCtx` is
only stored into the context for handler side effects, so the results
do not depend on it. -/
def ExecuteTools (reg : Registry) (toolCalls : List ToolCall)
    (_streamCtx : Option StreamingContext) : List ToolExecutionResult :=
  toolCalls.map (execOneCall reg)

theorem executeTools_length (reg : Registry) (toolCalls : List ToolCall)
    (sctx : Option StreamingContext) :
    (ExecuteTools reg toolCalls sctx).length = toolCalls.length := by
  simp [ExecuteTools]

theorem execOneCall_ToolCallID (reg : Registry) (tc : ToolCall) :
    (execOneCall reg tc).ToolCallID = tc.ID := by
  unfold execOneCall
  dsimp only
  split
  · rfl
  · split
    · rfl
    · split
      · rfl
      · rfl
      · split
        · split <;> rfl
        · rfl

theorem execOneCall_ToolName (reg : Registry) (tc : ToolCall) :
    (execOneCall reg tc).ToolName = tc.Name := by
  unfold execOneCall
  dsimp only
  split
  · rfl
  · split
    · rfl
    · split
      · rfl
      · rfl
      · split
        · split <;> rfl
        · rfl

/-- Character-list prefix test (for modelling `strings.Contains`). -/
def charsPrefix : List Char → List Char → Bool
  | [], _ => true
  | _ :: _, [] => false
  | c :: cs, d :: ds => c == d && charsPrefix cs ds

/-- Character-list substring test. -/
def charsContains : List Char → List Char → Bool
  | [], needle => needle.isEmpty
  | h :: t, needle => charsPrefix needle (h :: t) || charsContains t needle

/-- Go's `strings.Contains`. -/
def strContains (s sub : String) : Bool := charsContains s.data sub.data

/-- JSON marshalling of a scalar, modelling `encoding/json.Marshal`. -/
def JVal.marshal : JVal → String
  | JVal.vstr s => "\"" ++ s ++ "\""
  | JVal.vbool b => if b then "true" else "false"
  | JVal.vnum n => toString n
  | JVal.vnull => "null"

/-- Lexicographic (byte-wise) order on character lists, for the sorted
key order `encoding/json` uses when marshalling maps. -/
def charsLe : List Char → List Char → Bool
  | [], _ => true
  | _ :: _, [] => false
  | c :: cs, d :: ds => if c == d then charsLe cs ds else Nat.blt c.toNat d.toNat

/-- Lexicographic string order. -/
def strLe (a b : String) : Bool := charsLe a.data b.data

/-- Insertion of a key/value pair into a key-sorted list (Go's
`encoding/json` marshals map keys in sorted order). -/
def insertByKey (p : String × JVal) : List (String × JVal) → List (String × JVal)
  | [] => [p]
  | q :: rest => if strLe p.1 q.1 then p :: q :: rest else q :: insertByKey p rest

/-- Sort a map's entries by key, as `encoding/json.Marshal` does. -/
def sortByKey : List (String × JVal) → List (String × JVal)
  | [] => []
  | p :: rest => insertByKey p (sortByKey rest)

/-- JSON marshalling of a flat map, modelling `encoding/json.Marshal`
applied to a `map[string]interface{}` (keys emitted in sorted order). -/
def JMap.marshal (m : JMap) : String :=
  let entries := (sortByKey m).map (fun p => "\"" ++ p.1 ++ "\":" ++ p.2.marshal)
  "\x7b" ++ String.intercalate "," entries ++ "\x7d"

/-- JSON marshalling of a handler payload (`json.Marshal(result.Result)`);
a nil interface marshals to `null`. -/
def marshalPayload : Option ToolPayload → String
  | none => "null"
  | some (ToolPayload.scalar v) => v.marshal
  | some (ToolPayload.omap m) => m.marshal

/-- Go's `fmt.Sprintf("%v", result.Result)` on the interface value. -/
def govStr : Option ToolPayload → String
  | none => "<nil>"
  | some (ToolPayload.scalar (JVal.vstr s)) => s
  | some (ToolPayload.scalar (JVal.vbool b)) => if b then "true" else "false"
  | some (ToolPayload.scalar (JVal.vnum n)) => toString n
  | some (ToolPayload.scalar JVal.vnull) => "<nil>"
  | some (ToolPayload.omap m) => "map" ++ m.marshal

/-- The content of an Anthropic `tool_result` block: either a plain
string, or the text-plus-image pair of content blocks that
`FormatAnthropicToolResult` builds for image results. -/
inductive ToolResultContent where
  | str (s : String)
  | textAndImage (text mediaType data : String)
deriving DecidableEq, Repr

/-- A provider-facing content block (`map[string]interface{}` with a
`"type"` discriminator, as constructed by the formatter functions and
the orchestration loops). -/
inductive ContentBlock where
  | text (text : String)
  | toolUse (id name : String) (input : JMap)
  | toolResult (toolUseId : String) (content : ToolResultContent) (isError : Bool)
  | image (mediaType data : String)
  | functionCall (name : String) (args : JMap)
  | functionResponse (name response : String)
deriving DecidableEq, Repr

/-- `Message` from anthropic.go: role plus content, where content is
either a plain string or a list of content-block maps. -/
inductive MessageContent where
  | str (s : String)
  | blocks (bs : List ContentBlock)
deriving DecidableEq, Repr

structure Message where
  Role : String
  Content : MessageContent
deriving DecidableEq, Repr

/-- `FormatAnthropicToolResult` from tool_handler.go.  On error, builds
the guidance-augmented error message and an `is_error` tool_result; on
an image result, inlines a text block and an image block inside the
tool_result's content; otherwise marshals the payload to a string. -/
def FormatAnthropicToolResult (result : ToolExecutionResult) : ContentBlock :=
  match result.Error with
  | some errStr =>
    let errorMsg := "Tool execution failed: " ++ errStr ++
      ". Please check the input parameters and try again. The tool '" ++
      result.ToolName ++ "' requires valid parameters."
    let errorMsg :=
      if strContains errStr "boardId" then
        errorMsg ++ " Make sure boardId is provided and is a valid UUID string."
      else if strContains errStr "shapeType" then
        errorMsg ++ " Make sure shapeType is one of: rect, circle, line, arrow, ellipse, polygon, text, pencil."
      else if strContains errStr "points" then
        errorMsg ++ " For line/arrow/polygon/pencil shapes, provide a 'points' array with coordinates [x1, y1, x2, y2, ...]."
      else if strContains errStr "empty" then
        errorMsg ++ " The tool input was empty. Please provide all required parameters: boardId, shapeType, x, y."
      else errorMsg
    ContentBlock.toolResult result.ToolCallID (ToolResultContent.str errorMsg) true
  | none =>
    match result.HasImage, result.ImageData with
    | true, some img =>
      ContentBlock.toolResult result.ToolCallID
        (ToolResultContent.textAndImage ("Board image for boardId: " ++ img.BoardID)
          img.MediaType img.ImageBase64) false
    | _, _ =>
      match result.Result with
      | some (ToolPayload.omap resultMap) =>
        ContentBlock.toolResult result.ToolCallID (ToolResultContent.str resultMap.marshal) false
      | other =>
        ContentBlock.toolResult result.ToolCallID (ToolResultContent.str (govStr other)) false

/-- `FormatGeminiToolResult` from tool_handler.go: returns the
function_response block and the (possibly empty) list of image content
blocks to be added separately. -/
def FormatGeminiToolResult (result : ToolExecutionResult) :
    ContentBlock × List ContentBlock :=
  match result.Error with
  | some errStr =>
    (ContentBlock.functionResponse result.ToolName (JMap.marshal [("error", JVal.vstr errStr)]), [])
  | none =>
    match result.HasImage, result.ImageData with
    | true, some img =>
      let metadata : JMap :=
        [("boardId", JVal.vstr img.BoardID), ("format", JVal.vstr img.Format),
         ("message", JVal.vstr ("Board image retrieved for boardId: " ++ img.BoardID))]
      (ContentBlock.functionResponse result.ToolName metadata.marshal,
       [ContentBlock.text ("Board image for boardId: " ++ img.BoardID),
        ContentBlock.image img.MediaType img.ImageBase64])
    | _, _ =>
      match result.Result with
      | some (ToolPayload.omap resultMap) =>
        (ContentBlock.functionResponse result.ToolName resultMap.marshal, [])
      | other =>
        (ContentBlock.functionResponse result.ToolName (marshalPayload other), [])

/-- `FormatLangChainToolResult` from tool_handler.go (OpenAI-compatible);
its body is identical to the Gemini formatter. -/
def FormatLangChainToolResult (result : ToolExecutionResult) :
    ContentBlock × List ContentBlock :=
  match result.Error with
  | some errStr =>
    (ContentBlock.functionResponse result.ToolName (JMap.marshal [("error", JVal.vstr errStr)]), [])
  | none =>
    match result.HasImage, result.ImageData with
    | true, some img =>
      let metadata : JMap :=
        [("boardId", JVal.vstr img.BoardID), ("format", JVal.vstr img.Format),
         ("message", JVal.vstr ("Board image retrieved for boardId: " ++ img.BoardID))]
      (ContentBlock.functionResponse result.ToolName metadata.marshal,
       [ContentBlock.text ("Board image for boardId: " ++ img.BoardID),
        ContentBlock.image img.MediaType img.ImageBase64])
    | _, _ =>
      match result.Result with
      | some (ToolPayload.omap resultMap) =>
        (ContentBlock.functionResponse result.ToolName resultMap.marshal, [])
      | other =>
        (ContentBlock.functionResponse result.ToolName (marshalPayload other), [])

/-- `ToolUse` from anthropic.go: a tool call in a Claude response. -/
structure ToolUse where
  ID : String
  Name : String
  Input : JMap
deriving DecidableEq, Repr

/-- `ClaudeResponse` from anthropic.go (the raw-response field is
omitted: it is never consulted by the orchestration loop). -/
structure ClaudeResponse where
  StopReason : String := ""
  TextContent : List String := []
  ToolUses : List ToolUse := []
deriving DecidableEq, Repr

/-- The result of a `ChatWithTools` run, capturing the Go pair
`(response, error)`: convergence `(cr, nil)`, a backend failure
`(nil, err)`, or iteration-budget exhaustion `(lastResp, err)`. -/
inductive ChatOutcome (α : Type) where
  | converged (r : α)
  | backendError (msg : String)
  | exhausted (last : Option α) (msg : String)
deriving DecidableEq, Repr

/-- Conversion of a Claude response's tool uses to the common
`ToolCall` format (anthropic.go `ChatWithTools`). -/
def anthropicToolCalls (cr : ClaudeResponse) : List ToolCall :=
  cr.ToolUses.map (fun tu => { ID := tu.ID, Name := tu.Name, Input := tu.Input, Provider := "anthropic" })

/-- The two conversation turns the Anthropic `ChatWithTools` loop
appends after executing the tools of a response: one assistant turn
(text blocks + tool_use declarations) and one user turn (the formatted
tool results). -/
def anthropicTurns (reg : Registry) (sctx : Option StreamingContext)
    (cr : ClaudeResponse) : List Message :=
  let execResults := ExecuteTools reg (anthropicToolCalls cr) sctx
  let toolResultsContent := execResults.map FormatAnthropicToolResult
  let assistantContent :=
    cr.TextContent.map ContentBlock.text ++
    cr.ToolUses.map (fun tu => ContentBlock.toolUse tu.ID tu.Name tu.Input)
  [{ Role := "assistant", Content := MessageContent.blocks assistantContent },
   { Role := "user", Content := MessageContent.blocks toolResultsContent }]

/-- `const maxIterations = 10` in anthropic.go `ChatWithTools`. -/
def anthropicMaxIterations : Nat := 10

/-- The iteration structure of anthropic.go `ChatWithTools` (backend
call abstracted as a function of the working conversation; the `iter`
counter is modelled as remaining fuel, and the number of backend calls
performed so far is threaded through). -/
def anthropicChatAux (backend : List Message → Except String ClaudeResponse)
    (reg : Registry) (sctx : Option StreamingContext) :
    Nat → List Message → Option ClaudeResponse → Nat →
      ChatOutcome ClaudeResponse × Nat
  | 0, _, last, calls =>
    (ChatOutcome.exhausted last "max iterations reached (10) while resolving tools", calls)
  | fuel + 1, working, _, calls =>
    match backend working with
    | Except.error e =>
      (ChatOutcome.backendError ("callClaudeWithMessages: " ++ e), calls + 1)
    | Except.ok cr =>
      if cr.ToolUses.isEmpty then (ChatOutcome.converged cr, calls + 1)
      else
        anthropicChatAux backend reg sctx fuel
          (working ++ anthropicTurns reg sctx cr) (some cr) (calls + 1)

/-- anthropic.go `ChatWithTools` on the non-streaming path
(`callClaudeWithMessages` abstracted as `backend`). -/
def anthropicChatWithTools (backend : List Message → Except String ClaudeResponse)
    (reg : Registry) (sctx : Option StreamingContext) (messages : List Message) :
    ChatOutcome ClaudeResponse × Nat :=
  anthropicChatAux backend reg sctx anthropicMaxIterations messages none 0

/-- One iteration's effect on the working conversation in the Anthropic
loop, for a backend that always answers (total function `f`). -/
def stepAnthropic (f : List Message → ClaudeResponse) (reg : Registry)
    (sctx : Option StreamingContext) (ws : List Message) : List Message :=
  ws ++ anthropicTurns reg sctx (f ws)

/-- `LangChainFunctionCall` from langchain.go. -/
structure LangChainFunctionCall where
  Name : String
  Arguments : JMap
deriving DecidableEq, Repr

/-- `LangChainResponse` from langchain.go (raw response omitted). -/
structure LangChainResponse where
  TextContent : List String := []
  FunctionCalls : List LangChainFunctionCall := []
deriving DecidableEq, Repr

/-- Conversion of LangChain function calls to the common `ToolCall`
format (langchain.go `ChatWithTools`): LangChain/OpenAI calls have no
IDs. -/
def langchainToolCalls (lr : LangChainResponse) : List ToolCall :=
  lr.FunctionCalls.map (fun fc => { ID := "", Name := fc.Name, Input := fc.Arguments, Provider := "langchain" })

/-- The conversation turns the LangChain `ChatWithTools` loop appends
after executing the tools of a response: assistant turn, user turn with
function results, and — when any image content blocks were produced —
one additional separate user turn carrying the images. -/
def langchainTurns (reg : Registry) (sctx : Option StreamingContext)
    (lr : LangChainResponse) : List Message :=
  let execResults := ExecuteTools reg (langchainToolCalls lr) sctx
  let pairs := execResults.map FormatLangChainToolResult
  let functionResults := pairs.map Prod.fst
  let imageContentBlocks := (pairs.map Prod.snd).flatten
  let assistantParts :=
    lr.TextContent.map ContentBlock.text ++
    lr.FunctionCalls.map (fun fc => ContentBlock.functionCall fc.Name fc.Arguments)
  [{ Role := "assistant", Content := MessageContent.blocks assistantParts },
   { Role := "user", Content := MessageContent.blocks functionResults }] ++
  (if imageContentBlocks.isEmpty then []
   else [{ Role := "user", Content := MessageContent.blocks imageContentBlocks }])

/-- `const maxIterations = 8` in langchain.go `ChatWithTools`. -/
def langchainMaxIterations : Nat := 8

/-- Whether the LangChain loop is driving a streaming call
(`streamCtx != nil && streamCtx.Client != nil`). -/
def isStreaming : Option StreamingContext → Bool
  | some sc => sc.hasClient
  | none => false

/-- The fresh per-iteration streaming context the LangChain loop
creates: empty buffer, `ShouldStream = false`. -/
def freshIterationCtx : Option StreamingContext → Option StreamingContext
  | some sc =>
    if sc.hasClient then
      some { hasClient := true, BoardId := sc.BoardId, BufferedChunks := [], ShouldStream := false }
    else none
  | none => none

/-- The iteration structure of langchain.go `ChatWithTools`.  The
backend (`callLangChainWithMessages`) is abstracted as a function
returning the text chunks its streaming callback would report along
with the parsed response.  Since each iteration's context has
`ShouldStream = false`, the callback buffers exactly those chunks (when
a client is attached); on convergence the loop flushes the buffer to
the client in order, and on a tool-call iteration the buffer is
dropped.  The accumulated list of chunks delivered to the client and
the number of backend calls are threaded through. -/
def langchainChatAux
    (backend : List Message → List String × Except String LangChainResponse)
    (reg : Registry) (streamCtx : Option StreamingContext) :
    Nat → List Message → Option LangChainResponse → List String → Nat →
      ChatOutcome LangChainResponse × List String × Nat
  | 0, _, last, sent, calls =>
    (ChatOutcome.exhausted last "max iterations reached (8) while resolving tools", sent, calls)
  | fuel + 1, working, _, sent, calls =>
    let currentStreamCtx := freshIterationCtx streamCtx
    let (chunks, res) := backend working
    match res with
    | Except.error e =>
      (ChatOutcome.backendError ("callLangChainWithMessages: " ++ e), sent, calls + 1)
    | Except.ok lr =>
      let bufferedChunks := if isStreaming streamCtx then chunks else []
      if lr.FunctionCalls.isEmpty then
        (ChatOutcome.converged lr, sent ++ bufferedChunks, calls + 1)
      else
        langchainChatAux backend reg streamCtx fuel
          (working ++ langchainTurns reg currentStreamCtx lr) (some lr) sent (calls + 1)

/-- langchain.go `ChatWithTools`. -/
def langchainChatWithTools
    (backend : List Message → List String × Except String LangChainResponse)
    (reg : Registry) (streamCtx : Option StreamingContext) (messages : List Message) :
    ChatOutcome LangChainResponse × List String × Nat :=
  langchainChatAux backend reg streamCtx langchainMaxIterations messages none [] 0

/-- One iteration's effect on the working conversation in the LangChain
loop, for a backend that always answers. -/
def stepLangchain (f : List Message → List String × LangChainResponse)
    (reg : Registry) (streamCtx : Option StreamingContext) (ws : List Message) : List Message :=
  ws ++ langchainTurns reg (freshIterationCtx streamCtx) (f ws).2

/-- `FunctionCall` from gemini.go. -/
structure GFunctionCall where
  Name : String
  Arguments : JMap
deriving DecidableEq, Repr

/-- `GeminiResponse` from gemini.go (raw response omitted). -/
structure GeminiResponse where
  TextContent : List String := []
  FunctionCalls : List GFunctionCall := []
deriving DecidableEq, Repr

/-- Conversion of Gemini function calls to the common `ToolCall` format
(gemini.go `ChatWithTools`): Gemini calls have no IDs. -/
def geminiToolCalls (gr : GeminiResponse) : List ToolCall :=
  gr.FunctionCalls.map (fun fc => { ID := "", Name := fc.Name, Input := fc.Arguments, Provider := "gemini" })

/-- The conversation turns the Gemini `ChatWithTools` loop appends after
executing the tools of a response (gemini.go passes no streaming
context to the executor): assistant turn, user turn with function
results, and — when image blocks were produced — one additional
separate user turn carrying the images. -/
def geminiTurns (reg : Registry) (gr : GeminiResponse) : List Message :=
  let execResults := ExecuteTools reg (geminiToolCalls gr) none
  let pairs := execResults.map FormatGeminiToolResult
  let functionResults := pairs.map Prod.fst
  let imageContentBlocks := (pairs.map Prod.snd).flatten
  let assistantParts :=
    gr.TextContent.map ContentBlock.text ++
    gr.FunctionCalls.map (fun fc => ContentBlock.functionCall fc.Name fc.Arguments)
  [{ Role := "assistant", Content := MessageContent.blocks assistantParts },
   { Role := "user", Content := MessageContent.blocks functionResults }] ++
  (if imageContentBlocks.isEmpty then []
   else [{ Role := "user", Content := MessageContent.blocks imageContentBlocks }])

/-- The iteration structure of gemini.go `ChatWithTools`
(`const maxIterations = 8`). -/
def geminiChatAux (backend : List Message → Except String GeminiResponse)
    (reg : Registry) :
    Nat → List Message → Option GeminiResponse → Nat →
      ChatOutcome GeminiResponse × Nat
  | 0, _, last, calls =>
    (ChatOutcome.exhausted last "max iterations reached (8) while resolving tools", calls)
  | fuel + 1, working, _, calls =>
    match backend working with
    | Except.error e =>
      (ChatOutcome.backendError ("callGeminiWithMessages: " ++ e), calls + 1)
    | Except.ok gr =>
      if gr.FunctionCalls.isEmpty then (ChatOutcome.converged gr, calls + 1)
      else
        geminiChatAux backend reg fuel (working ++ geminiTurns reg gr) (some gr) (calls + 1)

/-- gemini.go `ChatWithTools`. -/
def geminiChatWithTools (backend : List Message → Except String GeminiResponse)
    (reg : Registry) (messages : List Message) : ChatOutcome GeminiResponse × Nat :=
  geminiChatAux backend reg 8 messages none 0

/-! ### The Claude streaming-event assembler (`StreamClaudeWithMessages`)

The SSE scanner loop of anthropic.go is modelled as a fold over the list
of already-decoded `streamEvent`s (malformed `data:` lines are skipped
by the Go code before reaching the switch, and the `[DONE]` sentinel
ends the list).  `json.Unmarshal` of accumulated partial-JSON input is
abstracted as a `parse` oracle.  Chunks pushed to the client through
`SendChatMessageResponse` are collected in a `sent` log. -/

/-- Association-list lookup for the Go maps keyed by block index. -/
def alookup {α : Type} (m : List (Int × α)) (k : Int) : Option α :=
  (List.find? (fun p => p.1 == k) m).map (fun p => p.2)

/-- Association-list update/insert (`m[k] = v`). -/
def aset {α : Type} : List (Int × α) → Int → α → List (Int × α)
  | [], k, v => [(k, v)]
  | p :: rest, k, v => if p.1 == k then (k, v) :: rest else p :: aset rest k v

/-- Association-list delete (`delete(m, k)`). -/
def aerase {α : Type} (m : List (Int × α)) (k : Int) : List (Int × α) :=
  m.filter (fun p => p.1 != k)

/-- `streamDelta` from anthropic.go. -/
structure StreamDelta where
  type : String := ""
  text : String := ""
  delta : String := ""
  PartialJSON : String := ""
deriving DecidableEq, Repr

/-- `streamContentBlockRef` from anthropic.go (for content_block_start). -/
structure StreamContentBlockRef where
  type : String := ""
  index : Int := 0
  id : String := ""
  name : String := ""
deriving DecidableEq, Repr

/-- `streamContentBlock` from anthropic.go (for full content_block
events); a nil/absent input map is the empty list. -/
structure StreamContentBlock where
  type : String := ""
  text : String := ""
  id : String := ""
  name : String := ""
  input : JMap := []
  index : Int := 0
deriving DecidableEq, Repr

/-- `streamEvent` from anthropic.go. -/
structure StreamEvent where
  type : String := ""
  content : List StreamContentBlock := []
  delta : Option StreamDelta := none
  stopReason : String := ""
  contentBlock : Option StreamContentBlockRef := none
  index : Int := 0
deriving DecidableEq, Repr

/-- The mutable state of the SSE scanner loop: the response being
accumulated, the current text builder, the overall accumulated text,
the per-index tool_use builders and input builders, and the log of
chunks sent to the client. -/
structure StreamState where
  cr : ClaudeResponse := {}
  currentText : String := ""
  accumulated : String := ""
  builders : List (Int × ToolUse) := []
  inputBuilders : List (Int × String) := []
  sent : List String := []
deriving DecidableEq, Repr

/-- The `content_block_stop` input-recovery step: if an input builder
for this index holds accumulated JSON, parse it and on success replace
the tool use's input. -/
def applyAccumulatedInput (parse : String → Option JMap)
    (ibs : List (Int × String)) (idx : Int) (tu : ToolUse) : ToolUse :=
  match alookup ibs idx with
  | some acc =>
    if acc != "" then
      match parse acc with
      | some input => { tu with Input := input }
      | none => tu
    else tu
  | none => tu

/-- The finalization loop of the `content_block_stop` case: for each
index to finalize, recover the input, add the tool use to the response
only when both ID and Name are non-empty, and delete the builders. -/
def finalizeIndices (parse : String → Option JMap) :
    StreamState → List Int → StreamState
  | s, [] => s
  | s, idx :: rest =>
    match alookup s.builders idx with
    | none => finalizeIndices parse s rest
    | some toolUse =>
      let toolUse := applyAccumulatedInput parse s.inputBuilders idx toolUse
      let s :=
        if toolUse.ID != "" && toolUse.Name != "" then
          { s with cr := { s.cr with ToolUses := s.cr.ToolUses ++ [toolUse] } }
        else s
      let s := { s with builders := aerase s.builders idx,
                        inputBuilders := aerase s.inputBuilders idx }
      finalizeIndices parse s rest

/-- The pending-builder loop of the `message_stop` case: guarded on
non-empty ID and Name, with duplicate suppression by call ID. -/
def messageStopFinalize (parse : String → Option JMap) :
    StreamState → List (Int × ToolUse) → StreamState
  | s, [] => s
  | s, (idx, toolUse) :: rest =>
    if toolUse.ID != "" && toolUse.Name != "" then
      let toolUse := applyAccumulatedInput parse s.inputBuilders idx toolUse
      let s :=
        if s.cr.ToolUses.any (fun existing => existing.ID == toolUse.ID) then s
        else { s with cr := { s.cr with ToolUses := s.cr.ToolUses ++ [toolUse] } }
      messageStopFinalize parse s rest
    else messageStopFinalize parse s rest

/-- The end-of-stream finalization loop for remaining tool_use builders
(anthropic.go lines after the scanner loop): recover input, then add
only when both ID and Name are non-empty. -/
def endStreamFinalize (parse : String → Option JMap) :
    StreamState → List (Int × ToolUse) → StreamState
  | s, [] => s
  | s, (idx, toolUse) :: rest =>
    let toolUse := applyAccumulatedInput parse s.inputBuilders idx toolUse
    let s :=
      if toolUse.ID != "" && toolUse.Name != "" then
        { s with cr := { s.cr with ToolUses := s.cr.ToolUses ++ [toolUse] } }
      else s
    endStreamFinalize parse s rest

/-- The `content_block` (full block) case: text blocks are recorded and
sent immediately; tool_use blocks are appended to the response
unconditionally, and any in-progress builder for the same index is
updated. -/
def processFullBlocks (parse : String → Option JMap) (hasClient : Bool) :
    StreamState → List StreamContentBlock → StreamState
  | s, [] => s
  | s, block :: rest =>
    let s :=
      if block.type == "text" && block.text != "" then
        { s with cr := { s.cr with TextContent := s.cr.TextContent ++ [block.text] },
                 accumulated := s.accumulated ++ block.text,
                 sent := if hasClient then s.sent ++ [block.text] else s.sent }
      else if block.type == "tool_use" then
        let toolUse : ToolUse := { ID := block.id, Name := block.name, Input := block.input }
        let toolUse :=
          if toolUse.Input.isEmpty && block.index ≥ 0 then
            applyAccumulatedInput parse s.inputBuilders block.index toolUse
          else toolUse
        let s := { s with cr := { s.cr with ToolUses := s.cr.ToolUses ++ [toolUse] } }
        if block.index ≥ 0 then
          match alookup s.builders block.index with
          | some existingToolUse =>
            let existingToolUse := { existingToolUse with ID := block.id, Name := block.name }
            let existingToolUse :=
              if !block.input.isEmpty then { existingToolUse with Input := block.input }
              else applyAccumulatedInput parse s.inputBuilders block.index existingToolUse
            { s with builders := aset s.builders block.index existingToolUse }
          | none => s
        else s
      else s
    processFullBlocks parse hasClient s rest

/-- One step of the SSE event switch in `StreamClaudeWithMessages`. -/
def processEvent (parse : String → Option JMap) (hasClient : Bool)
    (s : StreamState) (ev : StreamEvent) : StreamState :=
  if ev.type == "content_block_delta" then
    match ev.delta with
    | none => s
    | some d =>
      if d.type == "text_delta" && d.text != "" then
        { s with currentText := s.currentText ++ d.text,
                 accumulated := s.accumulated ++ d.text,
                 sent := if hasClient then s.sent ++ [d.text] else s.sent }
      else if d.type == "input_json_delta" then
        let jsonChunk := if d.PartialJSON != "" then d.PartialJSON else d.delta
        if jsonChunk != "" then
          match alookup s.inputBuilders ev.index with
          | some acc =>
            { s with inputBuilders := aset s.inputBuilders ev.index (acc ++ jsonChunk) }
          | none =>
            if s.inputBuilders.isEmpty then s
            else
              let maxIndex := (s.inputBuilders.map (fun p => p.1)).foldl max (-1 : Int)
              if maxIndex ≥ 0 then
                match alookup s.inputBuilders maxIndex with
                | some acc =>
                  { s with inputBuilders := aset s.inputBuilders maxIndex (acc ++ jsonChunk) }
                | none => s
              else s
        else s
      else s
  else if ev.type == "content_block_stop" then
    let s :=
      if s.currentText != "" then
        { s with cr := { s.cr with TextContent := s.cr.TextContent ++ [s.currentText] },
                 currentText := "" }
      else s
    let indicesToFinalize :=
      if (alookup s.builders ev.index).isSome then [ev.index]
      else s.builders.map (fun p => p.1)
    finalizeIndices parse s indicesToFinalize
  else if ev.type == "content_block_start" then
    match ev.contentBlock with
    | some cb =>
      if cb.type == "tool_use" then
        { s with builders := aset s.builders cb.index { ID := cb.id, Name := cb.name, Input := [] },
                 inputBuilders := aset s.inputBuilders cb.index "" }
      else if cb.type == "text" then { s with currentText := "" }
      else s
    | none => s
  else if ev.type == "message_stop" then
    let s := if ev.stopReason != "" then { s with cr := { s.cr with StopReason := ev.stopReason } } else s
    let s := messageStopFinalize parse s s.builders
    { s with builders := [], inputBuilders := [] }
  else if ev.type == "message_delta" then
    if ev.stopReason != "" then { s with cr := { s.cr with StopReason := ev.stopReason } } else s
  else if ev.type == "content_block" then
    processFullBlocks parse hasClient s ev.content
  else s

/-- The finalization after the scanner loop ends: flush remaining text,
finalize remaining tool_use builders, and fall back to the accumulated
text when no text content was recorded. -/
def finalizeStream (parse : String → Option JMap) (s : StreamState) : StreamState :=
  let s :=
    if s.currentText != "" then
      { s with cr := { s.cr with TextContent := s.cr.TextContent ++ [s.currentText] } }
    else s
  let s := endStreamFinalize parse s s.builders
  if s.accumulated != "" && s.cr.TextContent.isEmpty then
    { s with cr := { s.cr with TextContent := [s.accumulated] } }
  else s

/-- `StreamClaudeWithMessages` from anthropic.go, modelled on the
already-decoded event list: the assembled response together with the
log of text chunks sent to the client while streaming. -/
def streamClaudeRun (parse : String → Option JMap) (hasClient : Bool)
    (events : List StreamEvent) : StreamState :=
  finalizeStream parse (events.foldl (processEvent parse hasClient) {})

/-- The streaming path of anthropic.go `ChatWithTools`
(`StreamClaudeWithMessages` drives each iteration; the client is
attached, so every text delta is pushed to it as it arrives). -/
def anthropicChatStreamAux (parse : String → Option JMap)
    (backendEvents : List Message → List StreamEvent)
    (reg : Registry) (sctx : StreamingContext) :
    Nat → List Message → Option ClaudeResponse → List String → Nat →
      ChatOutcome ClaudeResponse × List String × Nat
  | 0, _, last, sent, calls =>
    (ChatOutcome.exhausted last "max iterations reached (10) while resolving tools", sent, calls)
  | fuel + 1, working, _, sent, calls =>
    let st := streamClaudeRun parse true (backendEvents working)
    let cr := st.cr
    let sent := sent ++ st.sent
    if cr.ToolUses.isEmpty then (ChatOutcome.converged cr, sent, calls + 1)
    else
      anthropicChatStreamAux parse backendEvents reg sctx fuel
        (working ++ anthropicTurns reg (some sctx) cr) (some cr) sent (calls + 1)

/-- anthropic.go `ChatWithTools` on the streaming path. -/
def anthropicChatStreamWithTools (parse : String → Option JMap)
    (backendEvents : List Message → List StreamEvent)
    (reg : Registry) (sctx : StreamingContext) (messages : List Message) :
    ChatOutcome ClaudeResponse × List String × Nat :=
  anthropicChatStreamAux parse backendEvents reg sctx anthropicMaxIterations messages none [] 0

/-! ### The connection hub (`internal/libraries/websocket.go`)

`Hub.Run` is a single serial event loop selecting over the register,
unregister and broadcast channels, so the hub is modelled as a state
machine stepping over a sequence of received events.  A client's
outbound channel is modelled by its close history: Go's `close` on an
already-closed channel panics, which the model records in a `panicked`
flag; `client.once.Do` is modelled by the per-client `onceDone` set. -/

/-- An event received by the `Hub.Run` select loop. -/
inductive HubEvent where
  | register (id : String)
  | unregister (id : String)
  | broadcast
deriving DecidableEq, Repr

/-- The hub registry plus the lifecycle state of each client's outbound
channel.  `registered` models the key set of `h.Clients`; `onceDone`
models each client's `sync.Once` having fired; `closeLog` records every
`close(client.Send)` actually executed. -/
structure HubModel where
  registered : List String := []
  onceDone : List String := []
  closeLog : List String := []
  panicked : Bool := false
deriving DecidableEq, Repr

/-- `close(client.Send)`: closing an already-closed channel panics. -/
def closeSend (s : HubModel) (id : String) : HubModel :=
  if s.closeLog.contains id then { s with panicked := true }
  else { s with closeLog := id :: s.closeLog }

/-- One iteration of the `Hub.Run` select loop.  Register inserts the
client under its ID (map assignment); unregister deletes it if present
and fires the one-shot close guard; broadcast only enqueues messages,
touching neither the registry keys nor any channel's closed state. -/
def hubStep (s : HubModel) (e : HubEvent) : HubModel :=
  match e with
  | HubEvent.register id =>
    if s.registered.contains id then s
    else { s with registered := id :: s.registered }
  | HubEvent.unregister id =>
    if s.registered.contains id then
      let s := { s with registered := s.registered.filter (fun x => x != id) }
      if s.onceDone.contains id then s
      else closeSend { s with onceDone := id :: s.onceDone } id
    else s
  | HubEvent.broadcast => s

/-- `Hub.Run` over a finite prefix of its event stream, from the fresh
hub built by `NewHub`. -/
def hubRun (events : List HubEvent) : HubModel :=
  events.foldl hubStep {}

/-! ### WebSocket message dispatch (`WebSocketHandler` read loop) -/

/-- The payload of a parsed inbound envelope, as produced by
`parseWebSocketMessage`: a `chat_message` payload (board id may be the
zero value `""` when absent from the JSON), a `shape_created` payload,
or a generic decoded value (for other types).  `none` models a nil
`Data` field (no `data` key or empty raw payload). -/
inductive WSPayload where
  | chat (boardId : String) (message : String)
  | shape (boardId : String)
  | generic
deriving DecidableEq, Repr

/-- A parsed inbound WebSocket envelope (`WebSocketMessage`). -/
structure WSMessage where
  type : String
  data : Option WSPayload := none
deriving DecidableEq, Repr

/-- An observable action the read loop performs for one inbound
message. -/
inductive WSAction where
  | sendPong
  | sendError (msg : String)
  | dispatchChat (boardId : String) (message : String)
deriving DecidableEq, Repr

/-- The per-message dispatch of the `WebSocketHandler` read loop on a
successfully parsed envelope, paired with whether the loop continues
reading (the connection stays open).  Every branch of the Go code ends
in `continue` or falls through to the next read, so the second
component is `true` on all branches. -/
def handleParsedMessage (m : WSMessage) : List WSAction × Bool :=
  if m.type == "ping" then
    ([WSAction.sendPong], true)
  else if m.type == "chat_message" then
    match m.data with
    | none => ([WSAction.sendError "Chat message payload is required"], true)
    | some (WSPayload.chat boardId message) =>
      if boardId == "" then ([WSAction.sendError "Board ID is required"], true)
      else ([WSAction.dispatchChat boardId message], true)
    | some _ => ([WSAction.sendError "Invalid chat message payload type"], true)
  else
    ([WSAction.sendError "Type is invalid or not provided"], true)

/-! ### Helper lemmas about the executor -/

/-- Default values used for positional indexing of batches/results. -/
def noCall : ToolCall := { ID := "", Name := "", Input := [], Provider := "" }

def noResult : ToolExecutionResult := { ToolCallID := "", ToolName := "" }

theorem getD_map_lt {α β : Type} (f : α → β) (l : List α) (i : Nat)
    (h : i < l.length) (d : α) (d' : β) :
    (l.map f).getD i d' = f (l.getD i d) := by
  induction l generalizing i with
  | nil => simp at h
  | cons hd tl ih =>
    cases i with
    | zero => simp
    | succ n =>
      simp only [List.map_cons, List.getD_cons_succ]
      exact ih n (by simpa using h)

theorem execOneCall_empty (reg : Registry) (tc : ToolCall)
    (h : tc.Input.isEmpty = true) :
    execOneCall reg tc =
      { ToolCallID := tc.ID, ToolName := tc.Name, Error := some emptyInputMsg } := by
  simp [execOneCall, h]

theorem execOneCall_unknown (reg : Registry) (tc : ToolCall)
    (h : tc.Input.isEmpty = false) (h2 : reg tc.Name = none) :
    execOneCall reg tc =
      { ToolCallID := tc.ID, ToolName := tc.Name, Error := some ("unknown tool: " ++ tc.Name) } := by
  simp [execOneCall, h, h2]

theorem execOneCall_panicked (reg : Registry) (tc : ToolCall)
    (handler : ToolHandler) (rmsg : String)
    (h : tc.Input.isEmpty = false) (h2 : reg tc.Name = some handler)
    (h3 : handler tc.Input = HandlerOutcome.panicked rmsg) :
    execOneCall reg tc =
      { ToolCallID := tc.ID, ToolName := tc.Name,
        Error := some ("tool execution panicked: " ++ rmsg) } := by
  simp [execOneCall, h, h2, h3]

theorem execOneCall_image (reg : Registry) (tc : ToolCall)
    (handler : ToolHandler) (m : JMap)
    (h : tc.Input.isEmpty = false) (h2 : reg tc.Name = some handler)
    (h3 : handler tc.Input = HandlerOutcome.ok (ToolPayload.omap m))
    (h4 : m.getBool "_imageContent" = true) :
    execOneCall reg tc =
      { ToolCallID := tc.ID, ToolName := tc.Name,
        Result := some (ToolPayload.omap m), HasImage := true,
        ImageData := some
          { BoardID := m.getStr "boardId", ImageBase64 := m.getStr "image",
            Format := m.getStr "format",
            MediaType :=
              if m.getStr "format" != "" then "image/" ++ m.getStr "format"
              else "image/png" } } := by
  simp [execOneCall, h, h2, h3, h4]

theorem execOneCall_congr (reg reg' : Registry) (tc : ToolCall)
    (h : reg' tc.Name = reg tc.Name) : execOneCall reg' tc = execOneCall reg tc := by
  unfold execOneCall
  rw [h]

theorem executeTools_getD (reg : Registry) (sctx : Option StreamingContext)
    (toolCalls : List ToolCall) (i : Nat) (h : i < toolCalls.length) :
    (ExecuteTools reg toolCalls sctx).getD i noResult =
      execOneCall reg (toolCalls.getD i noCall) := by
  exact getD_map_lt (execOneCall reg) toolCalls i h noCall noResult

/-- C1: for every batch of N tool calls (including calls with an empty
input map or an unregistered tool name) and every optional
StreamingContext, `ExecuteTools` returns exactly N results, in the same
order as the input calls, with the i-th result carrying the ToolCallID
and ToolName of the i-th call. -/
theorem executeTools_batch_completeness (reg : Registry)
    (sctx : Option StreamingContext) (toolCalls : List ToolCall) :
    (ExecuteTools reg toolCalls sctx).map ToolExecutionResult.ToolCallID =
      toolCalls.map ToolCall.ID ∧
    (ExecuteTools reg toolCalls sctx).map ToolExecutionResult.ToolName =
      toolCalls.map ToolCall.Name ∧
    (ExecuteTools reg toolCalls sctx).length = toolCalls.length := by
  refine ⟨?_, ?_, executeTools_length reg toolCalls sctx⟩ <;>
  · induction toolCalls with
    | nil => rfl
    | cons hd tl ih =>
      simp only [ExecuteTools, List.map_cons, execOneCall_ToolCallID,
        execOneCall_ToolName, List.cons.injEq, true_and] at ih ⊢
      exact ih

/-- C4: a call with an empty input map yields a synthesized empty-input
error result computed without consulting the registry; a call with an
unregistered tool name yields a synthesized "unknown tool" error result
naming the tool; and in both cases the batch continues: every position
of the batch is processed independently and the result list keeps
length N. -/
theorem executeTools_degenerate_calls (reg reg' : Registry)
    (sctx sctx' : Option StreamingContext) (toolCalls : List ToolCall)
    (i : Nat) (h : i < toolCalls.length) :
    ((toolCalls.getD i noCall).Input.isEmpty = true →
      (ExecuteTools reg toolCalls sctx).getD i noResult =
        { ToolCallID := (toolCalls.getD i noCall).ID,
          ToolName := (toolCalls.getD i noCall).Name,
          Error := some emptyInputMsg } ∧
      (ExecuteTools reg toolCalls sctx).getD i noResult =
        (ExecuteTools reg' toolCalls sctx').getD i noResult) ∧
    ((toolCalls.getD i noCall).Input.isEmpty = false →
      reg (toolCalls.getD i noCall).Name = none →
      (ExecuteTools reg toolCalls sctx).getD i noResult =
        { ToolCallID := (toolCalls.getD i noCall).ID,
          ToolName := (toolCalls.getD i noCall).Name,
          Error := some ("unknown tool: " ++ (toolCalls.getD i noCall).Name) }) ∧
    (∀ j, j < toolCalls.length →
      (ExecuteTools reg toolCalls sctx).getD j noResult =
        execOneCall reg (toolCalls.getD j noCall)) ∧
    (ExecuteTools reg toolCalls sctx).length = toolCalls.length := by
  refine ⟨?_, ?_, ?_, executeTools_length reg toolCalls sctx⟩
  · intro hemp
    rw [executeTools_getD reg sctx toolCalls i h,
        executeTools_getD reg' sctx' toolCalls i h,
        execOneCall_empty reg _ hemp, execOneCall_empty reg' _ hemp]
    exact ⟨rfl, rfl⟩
  · intro hemp hur
    rw [executeTools_getD reg sctx toolCalls i h, execOneCall_unknown reg _ hemp hur]
  · intro j hj
    exact executeTools_getD reg sctx toolCalls j hj

/-- C5: a handler panic at call i is caught and converted into an
execution-panicked error result for call i; every other position's
result is the per-call function of that call alone, and replacing the
faulting handler (at call i's tool name) with any other handler leaves
the result of every sibling call with a different tool name unchanged;
the batch stays total (length N), so the fault never reaches the
caller. -/
theorem executeTools_panic_isolation (reg reg' : Registry)
    (sctx sctx' : Option StreamingContext) (toolCalls : List ToolCall)
    (i : Nat) (h : i < toolCalls.length) (handler : ToolHandler) (rmsg : String)
    (hne : (toolCalls.getD i noCall).Input.isEmpty = false)
    (hreg : reg (toolCalls.getD i noCall).Name = some handler)
    (hpanic : handler (toolCalls.getD i noCall).Input = HandlerOutcome.panicked rmsg) :
    (ExecuteTools reg toolCalls sctx).getD i noResult =
      { ToolCallID := (toolCalls.getD i noCall).ID,
        ToolName := (toolCalls.getD i noCall).Name,
        Error := some ("tool execution panicked: " ++ rmsg) } ∧
    (∀ j, j < toolCalls.length →
      (ExecuteTools reg toolCalls sctx).getD j noResult =
        execOneCall reg (toolCalls.getD j noCall)) ∧
    (∀ j, j < toolCalls.length →
      (toolCalls.getD j noCall).Name ≠ (toolCalls.getD i noCall).Name →
      (∀ n, n ≠ (toolCalls.getD i noCall).Name → reg' n = reg n) →
      (ExecuteTools reg' toolCalls sctx').getD j noResult =
        (ExecuteTools reg toolCalls sctx).getD j noResult) ∧
    (ExecuteTools reg toolCalls sctx).length = toolCalls.length := by
  refine ⟨?_, ?_, ?_, executeTools_length reg toolCalls sctx⟩
  · rw [executeTools_getD reg sctx toolCalls i h,
        execOneCall_panicked reg _ handler rmsg hne hreg hpanic]
  · intro j hj
    exact executeTools_getD reg sctx toolCalls j hj
  · intro j hj hname hagree
    rw [executeTools_getD reg sctx toolCalls j hj,
        executeTools_getD reg' sctx' toolCalls j hj,
        execOneCall_congr reg reg' _ (hagree _ hname)]

/-- C9: a successful handler whose map payload carries the
`"_imageContent"` marker yields a result with HasImage set and
ImageData populated from the payload, with the media type defaulting to
`"image/png"` when the format is absent or empty and to
`"image/" ++ format` otherwise. -/
theorem executeTools_image_unpacking (reg : Registry)
    (sctx : Option StreamingContext) (toolCalls : List ToolCall)
    (i : Nat) (h : i < toolCalls.length) (handler : ToolHandler) (m : JMap)
    (hne : (toolCalls.getD i noCall).Input.isEmpty = false)
    (hreg : reg (toolCalls.getD i noCall).Name = some handler)
    (hok : handler (toolCalls.getD i noCall).Input = HandlerOutcome.ok (ToolPayload.omap m))
    (hmark : m.getBool "_imageContent" = true) :
    ((ExecuteTools reg toolCalls sctx).getD i noResult).HasImage = true ∧
    ((ExecuteTools reg toolCalls sctx).getD i noResult).ImageData = some
      { BoardID := m.getStr "boardId", ImageBase64 := m.getStr "image",
        Format := m.getStr "format",
        MediaType :=
          if m.getStr "format" != "" then "image/" ++ m.getStr "format"
          else "image/png" } ∧
    ((ExecuteTools reg toolCalls sctx).getD i noResult).Error = none := by
  rw [executeTools_getD reg sctx toolCalls i h,
      execOneCall_image reg _ handler m hne hreg hok hmark]
  exact ⟨rfl, rfl, rfl⟩

/-! ### Concrete fixtures for witnesses -/

def hGood : ToolHandler := fun _ => HandlerOutcome.ok (ToolPayload.scalar (JVal.vstr "ok"))

def hBoom : ToolHandler := fun _ => HandlerOutcome.panicked "kaboom"

def mImg : JMap :=
  [("_imageContent", JVal.vbool true), ("image", JVal.vstr "IMG64"),
   ("boardId", JVal.vstr "b1"), ("format", JVal.vstr "jpeg")]

def mImgNoFmt : JMap :=
  [("_imageContent", JVal.vbool true), ("image", JVal.vstr "IMG64"),
   ("boardId", JVal.vstr "b1")]

def hImg : ToolHandler := fun _ => HandlerOutcome.ok (ToolPayload.omap mImg)

def hImgNoFmt : ToolHandler := fun _ => HandlerOutcome.ok (ToolPayload.omap mImgNoFmt)

def regW : Registry := fun n =>
  if n == "good" then some hGood
  else if n == "boom" then some hBoom
  else if n == "img" then some hImg
  else if n == "img0" then some hImgNoFmt
  else none

def regW' : Registry := fun n => if n == "boom" then some hGood else regW n

def callsW : List ToolCall :=
  [{ ID := "t1", Name := "good", Input := [("x", JVal.vnum 1)], Provider := "anthropic" },
   { ID := "t2", Name := "boom", Input := [("x", JVal.vnum 2)], Provider := "anthropic" },
   { ID := "t3", Name := "nope", Input := [("x", JVal.vnum 3)], Provider := "anthropic" },
   { ID := "t4", Name := "good", Input := [], Provider := "anthropic" },
   { ID := "t5", Name := "img", Input := [("b", JVal.vstr "b1")], Provider := "anthropic" },
   { ID := "t6", Name := "img0", Input := [("b", JVal.vstr "b1")], Provider := "anthropic" }]

/-- Witness for the degenerate-call theorem at a concrete batch: the
empty-input call `t4` and the unknown-tool call `t3`. -/
theorem executeTools_degenerate_calls_witness :
    ((ExecuteTools regW callsW none).getD 3 noResult =
      { ToolCallID := "t4", ToolName := "good", Error := some emptyInputMsg }) ∧
    ((ExecuteTools regW callsW none).getD 2 noResult =
      { ToolCallID := "t3", ToolName := "nope", Error := some ("unknown tool: " ++ "nope") }) := by
  have H3 := (executeTools_degenerate_calls regW regW' none none callsW 3 (by decide)).1 (by decide)
  have H2 := (executeTools_degenerate_calls regW regW' none none callsW 2 (by decide)).2.1 (by decide) rfl
  exact ⟨H3.1, H2⟩

/-- Witness for the panic-isolation theorem at a concrete batch: call
`t2`'s handler panics; its siblings keep their normal results whether or
not the faulting handler is replaced. -/
theorem executeTools_panic_isolation_witness :
    ((ExecuteTools regW callsW none).getD 1 noResult =
      { ToolCallID := "t2", ToolName := "boom",
        Error := some ("tool execution panicked: " ++ "kaboom") }) ∧
    ((ExecuteTools regW' callsW none).getD 0 noResult =
      (ExecuteTools regW callsW none).getD 0 noResult) ∧
    ((ExecuteTools regW' callsW none).getD 2 noResult =
      (ExecuteTools regW callsW none).getD 2 noResult) := by
  have H := executeTools_panic_isolation regW regW' none none callsW 1 (by decide)
    hBoom "kaboom" (by decide) rfl rfl
  refine ⟨H.1, ?_, ?_⟩
  · exact H.2.2.1 0 (by decide) (by decide) (fun n hn => by
      have hn' : n ≠ "boom" := hn
      simp [regW', hn'])
  · exact H.2.2.1 2 (by decide) (by decide) (fun n hn => by
      have hn' : n ≠ "boom" := hn
      simp [regW', hn'])

/-- Witness for the image-unpacking theorem at concrete calls: `t5`'s
payload has format "jpeg" (media type `image/jpeg`), `t6`'s payload has
no format (media type defaults to `image/png`). -/
theorem executeTools_image_unpacking_witness :
    ((ExecuteTools regW callsW none).getD 4 noResult).HasImage = true ∧
    ((ExecuteTools regW callsW none).getD 4 noResult).ImageData =
      some { BoardID := "b1", ImageBase64 := "IMG64", Format := "jpeg",
             MediaType := "image/jpeg" } ∧
    ((ExecuteTools regW callsW none).getD 5 noResult).ImageData =
      some { BoardID := "b1", ImageBase64 := "IMG64", Format := "",
             MediaType := "image/png" } := by
  have H4 := executeTools_image_unpacking regW none callsW 4 (by decide) hImg mImg
    (by decide) rfl rfl (by decide)
  have H5 := executeTools_image_unpacking regW none callsW 5 (by decide) hImgNoFmt mImgNoFmt
    (by decide) rfl rfl (by decide)
  refine ⟨H4.1, ?_, ?_⟩
  · rw [H4.2.1]; decide
  · rw [H5.2.1]; decide

theorem handleParsedMessage_keeps_open (m : WSMessage) :
    (handleParsedMessage m).2 = true := by
  unfold handleParsedMessage
  split
  · rfl
  · split
    · split
      · rfl
      · split <;> rfl
      · rfl
    · rfl

/-- C7: dispatch of a well-formed inbound envelope: `ping` gets exactly
one pong; `chat_message` with a non-empty board id is dispatched to the
streaming entry point; `chat_message` with an empty or missing board
payload gets exactly one error envelope and nothing else; any other or
missing type gets exactly one error envelope; and in every case the
read loop continues (the connection stays open). -/
theorem websocket_dispatch (m : WSMessage) :
    (m.type = "ping" → handleParsedMessage m = ([WSAction.sendPong], true)) ∧
    (∀ b msg, m.type = "chat_message" → m.data = some (WSPayload.chat b msg) →
      b ≠ "" → handleParsedMessage m = ([WSAction.dispatchChat b msg], true)) ∧
    (∀ msg, m.type = "chat_message" → m.data = some (WSPayload.chat "" msg) →
      handleParsedMessage m = ([WSAction.sendError "Board ID is required"], true)) ∧
    (m.type = "chat_message" → m.data = none →
      handleParsedMessage m = ([WSAction.sendError "Chat message payload is required"], true)) ∧
    (m.type ≠ "ping" → m.type ≠ "chat_message" →
      handleParsedMessage m = ([WSAction.sendError "Type is invalid or not provided"], true)) ∧
    (handleParsedMessage m).2 = true := by
  refine ⟨?_, ?_, ?_, ?_, ?_, handleParsedMessage_keeps_open m⟩
  · intro h
    simp [handleParsedMessage, h]
  · intro b msg ht hd hb
    simp [handleParsedMessage, ht, hd, hb]
  · intro msg ht hd
    simp [handleParsedMessage, ht, hd]
  · intro ht hd
    simp [handleParsedMessage, ht, hd]
  · intro h1 h2
    simp [handleParsedMessage, h1, h2]

/-- Witness for the dispatch theorem at concrete envelopes. -/
theorem websocket_dispatch_witness :
    handleParsedMessage { type := "ping" } = ([WSAction.sendPong], true) ∧
    handleParsedMessage { type := "chat_message", data := some (WSPayload.chat "b1" "hi") } =
      ([WSAction.dispatchChat "b1" "hi"], true) ∧
    handleParsedMessage { type := "chat_message", data := some (WSPayload.chat "" "hi") } =
      ([WSAction.sendError "Board ID is required"], true) ∧
    handleParsedMessage { type := "chat_message" } =
      ([WSAction.sendError "Chat message payload is required"], true) ∧
    handleParsedMessage { type := "shape_created", data := some WSPayload.generic } =
      ([WSAction.sendError "Type is invalid or not provided"], true) :=
  ⟨(websocket_dispatch _).1 rfl,
   (websocket_dispatch _).2.1 "b1" "hi" rfl rfl (by decide),
   (websocket_dispatch _).2.2.1 "hi" rfl rfl,
   (websocket_dispatch _).2.2.2.1 rfl rfl,
   (websocket_dispatch _).2.2.2.2.1 (by decide) (by decide)⟩

/-! ### Hub close-once invariant -/

/-- The hub invariant: no double-close panic has occurred, and each
client's channel has been closed exactly once if its `sync.Once` has
fired and never otherwise. -/
def hubAll (s : HubModel) : Prop :=
  s.panicked = false ∧
  ∀ id, s.closeLog.count id = (if id ∈ s.onceDone then 1 else 0)

theorem hubAll_init : hubAll {} := by
  constructor
  · rfl
  · intro id
    simp

theorem closeSend_onceDone (s : HubModel) (id : String) :
    (closeSend s id).onceDone = s.onceDone := by
  unfold closeSend
  split <;> rfl

theorem hubStep_register_eq (s : HubModel) (id' : String) :
    hubStep s (HubEvent.register id') =
      (if s.registered.contains id' then s
       else { s with registered := id' :: s.registered }) := rfl

theorem hubStep_broadcast_eq (s : HubModel) :
    hubStep s HubEvent.broadcast = s := rfl

theorem hubStep_unregister_eq (s : HubModel) (id' : String) :
    hubStep s (HubEvent.unregister id') =
      (if s.registered.contains id' then
        (if s.onceDone.contains id' then
          { s with registered := s.registered.filter (fun x => x != id') }
         else
          closeSend { s with registered := s.registered.filter (fun x => x != id'),
                             onceDone := id' :: s.onceDone } id')
       else s) := rfl

theorem hubStep_hubAll (s : HubModel) (e : HubEvent) (h : hubAll s) :
    hubAll (hubStep s e) := by
  obtain ⟨hp, hc⟩ := h
  cases e with
  | register id' =>
    rw [hubStep_register_eq]
    split
    · exact ⟨hp, hc⟩
    · exact ⟨hp, hc⟩
  | broadcast => exact ⟨hp, hc⟩
  | unregister id' =>
    rw [hubStep_unregister_eq]
    by_cases hr : s.registered.contains id' = true
    · rw [if_pos hr]
      by_cases ho2 : s.onceDone.contains id' = true
      · rw [if_pos ho2]
        exact ⟨hp, hc⟩
      · rw [if_neg ho2]
        have hmem : id' ∉ s.onceDone := by
          intro hm
          exact ho2 (List.elem_iff.mpr hm)
        have h0 : s.closeLog.count id' = 0 := by
          rw [hc id', if_neg hmem]
        have hnc : id' ∉ s.closeLog := by
          simpa using List.count_eq_zero.mp h0
        unfold closeSend
        rw [if_neg (by simpa [List.elem_iff] using hnc)]
        constructor
        · exact hp
        · intro id
          by_cases hid : id = id'
          · subst hid
            simp [List.count_cons, h0]
          · simp only [List.count_cons]
            rw [hc id]
            simp [List.mem_cons, hid]
            intro heq
            exact absurd heq.symm hid
    · rw [if_neg hr]
      exact ⟨hp, hc⟩

theorem hubStep_onceDone_mono (s : HubModel) (e : HubEvent) (id : String)
    (h : id ∈ s.onceDone) : id ∈ (hubStep s e).onceDone := by
  cases e with
  | register id' =>
    rw [hubStep_register_eq]
    split
    · exact h
    · exact h
  | broadcast => exact h
  | unregister id' =>
    rw [hubStep_unregister_eq]
    split
    · split
      · exact h
      · rw [closeSend_onceDone]
        exact List.mem_cons_of_mem id' h
    · exact h

theorem hubFold_all (post : List HubEvent) :
    ∀ s, hubAll s → hubAll (post.foldl hubStep s) := by
  induction post with
  | nil => intro s hs; exact hs
  | cons e rest ih => intro s hs; exact ih _ (hubStep_hubAll s e hs)

theorem hubFold_onceDone_mono (post : List HubEvent) (id : String) :
    ∀ s, id ∈ s.onceDone → id ∈ (post.foldl hubStep s).onceDone := by
  induction post with
  | nil => intro s hs; exact hs
  | cons e rest ih => intro s hs; exact ih _ (hubStep_onceDone_mono s e id hs)

/-- C8: over every sequence of hub events the `Unregister` handler never
panics (re-unregistering a client, including from both the read and the
write path, is safe), the client's Send queue is closed at most once,
and once an `Unregister` is processed for a registered client the queue
is closed exactly once for the rest of the client's lifetime. -/
theorem hub_close_exactly_once (events : List HubEvent) (id : String) :
    (hubRun events).panicked = false ∧
    (hubRun events).closeLog.count id ≤ 1 ∧
    (∀ pre post, events = pre ++ HubEvent.unregister id :: post →
      (hubRun pre).registered.contains id = true →
      (hubRun events).closeLog.count id = 1) := by
  have hall : hubAll (hubRun events) := hubFold_all events {} hubAll_init
  refine ⟨hall.1, ?_, ?_⟩
  · rw [hall.2 id]
    split <;> omega
  · intro pre post hsplit hreg
    subst hsplit
    have hpre : hubAll (hubRun pre) := hubFold_all pre {} hubAll_init
    have hrw : hubRun (pre ++ HubEvent.unregister id :: post) =
        post.foldl hubStep (hubStep (hubRun pre) (HubEvent.unregister id)) := by
      simp [hubRun, List.foldl_append]
    rw [hrw]
    have h1 : id ∈ (hubStep (hubRun pre) (HubEvent.unregister id)).onceDone := by
      rw [hubStep_unregister_eq]
      rw [if_pos hreg]
      split
      · next ho => exact List.elem_iff.mp ho
      · rw [closeSend_onceDone]
        exact List.mem_cons_self id _
    have h2 := hubFold_onceDone_mono post id _ h1
    have h3 := hubFold_all post (hubStep (hubRun pre) (HubEvent.unregister id))
      (hubStep_hubAll (hubRun pre) (HubEvent.unregister id) hpre)
    rw [h3.2 id, if_pos h2]

/-- Witness for the hub close-once theorem: register a client, then
unregister it twice (read path and write path). -/
theorem hub_close_exactly_once_witness :
    (hubRun [HubEvent.register "c", HubEvent.unregister "c", HubEvent.unregister "c"]).panicked = false ∧
    (hubRun [HubEvent.register "c", HubEvent.unregister "c", HubEvent.unregister "c"]).closeLog.count "c" = 1 := by
  have H := hub_close_exactly_once
    [HubEvent.register "c", HubEvent.unregister "c", HubEvent.unregister "c"] "c"
  exact ⟨H.1, H.2.2 [HubEvent.register "c"] [HubEvent.unregister "c"] rfl (by decide)⟩

/-! ### Loop termination at the iteration budget -/

theorem isEmpty_false_of_ne_nil {α : Type} {l : List α} (h : l ≠ []) :
    l.isEmpty = false := by
  cases l with
  | nil => exact absurd rfl h
  | cons a t => rfl

theorem anthropicChatAux_zero (backend : List Message → Except String ClaudeResponse)
    (reg : Registry) (sctx : Option StreamingContext)
    (ws : List Message) (last : Option ClaudeResponse) (calls : Nat) :
    anthropicChatAux backend reg sctx 0 ws last calls =
      (ChatOutcome.exhausted last "max iterations reached (10) while resolving tools", calls) := rfl

theorem anthropicChatAux_succ_spec (f : List Message → ClaudeResponse)
    (reg : Registry) (sctx : Option StreamingContext) (fuel : Nat)
    (ws : List Message) (last : Option ClaudeResponse) (calls : Nat)
    (h : (f ws).ToolUses ≠ []) :
    anthropicChatAux (fun w => Except.ok (f w)) reg sctx (fuel + 1) ws last calls =
      anthropicChatAux (fun w => Except.ok (f w)) reg sctx fuel
        (ws ++ anthropicTurns reg sctx (f ws)) (some (f ws)) (calls + 1) := by
  simp only [anthropicChatAux, isEmpty_false_of_ne_nil h, Bool.false_eq_true, if_false]

theorem anthropicChatAux_exhausts (f : List Message → ClaudeResponse)
    (reg : Registry) (sctx : Option StreamingContext)
    (hf : ∀ ws, (f ws).ToolUses ≠ []) :
    ∀ fuel ws last calls,
      anthropicChatAux (fun w => Except.ok (f w)) reg sctx (fuel + 1) ws last calls =
        (ChatOutcome.exhausted (some (f ((stepAnthropic f reg sctx)^[fuel] ws)))
          "max iterations reached (10) while resolving tools", calls + fuel + 1) := by
  intro fuel
  induction fuel with
  | zero =>
    intro ws last calls
    rw [anthropicChatAux_succ_spec f reg sctx 0 ws last calls (hf ws),
        anthropicChatAux_zero]
    simp
  | succ n ih =>
    intro ws last calls
    rw [anthropicChatAux_succ_spec f reg sctx (n + 1) ws last calls (hf ws)]
    have hstep : ws ++ anthropicTurns reg sctx (f ws) = stepAnthropic f reg sctx ws := rfl
    rw [hstep, ih (stepAnthropic f reg sctx ws) (some (f ws)) (calls + 1),
        Function.iterate_succ_apply]
    congr 1
    omega

theorem langchainChatAux_zero
    (backend : List Message → List String × Except String LangChainResponse)
    (reg : Registry) (streamCtx : Option StreamingContext)
    (ws : List Message) (last : Option LangChainResponse)
    (sent : List String) (calls : Nat) :
    langchainChatAux backend reg streamCtx 0 ws last sent calls =
      (ChatOutcome.exhausted last "max iterations reached (8) while resolving tools",
        sent, calls) := rfl

theorem langchainChatAux_succ_spec (g : List Message → List String × LangChainResponse)
    (reg : Registry) (streamCtx : Option StreamingContext) (fuel : Nat)
    (ws : List Message) (last : Option LangChainResponse)
    (sent : List String) (calls : Nat)
    (h : (g ws).2.FunctionCalls ≠ []) :
    langchainChatAux (fun w => ((g w).1, Except.ok (g w).2)) reg streamCtx (fuel + 1) ws last sent calls =
      langchainChatAux (fun w => ((g w).1, Except.ok (g w).2)) reg streamCtx fuel
        (ws ++ langchainTurns reg (freshIterationCtx streamCtx) (g ws).2)
        (some (g ws).2) sent (calls + 1) := by
  simp only [langchainChatAux, isEmpty_false_of_ne_nil h, Bool.false_eq_true, if_false]

theorem langchainChatAux_converged_spec (g : List Message → List String × LangChainResponse)
    (reg : Registry) (streamCtx : Option StreamingContext) (fuel : Nat)
    (ws : List Message) (last : Option LangChainResponse)
    (sent : List String) (calls : Nat)
    (h : (g ws).2.FunctionCalls = []) :
    langchainChatAux (fun w => ((g w).1, Except.ok (g w).2)) reg streamCtx (fuel + 1) ws last sent calls =
      (ChatOutcome.converged (g ws).2,
        sent ++ (if isStreaming streamCtx then (g ws).1 else []), calls + 1) := by
  simp only [langchainChatAux, h, List.isEmpty_nil, if_true]

theorem langchainChatAux_exhausts (g : List Message → List String × LangChainResponse)
    (reg : Registry) (streamCtx : Option StreamingContext)
    (hg : ∀ ws, (g ws).2.FunctionCalls ≠ []) :
    ∀ fuel ws last sent calls,
      langchainChatAux (fun w => ((g w).1, Except.ok (g w).2)) reg streamCtx (fuel + 1) ws last sent calls =
        (ChatOutcome.exhausted (some ((g ((stepLangchain g reg streamCtx)^[fuel] ws)).2))
          "max iterations reached (8) while resolving tools", sent, calls + fuel + 1) := by
  intro fuel
  induction fuel with
  | zero =>
    intro ws last sent calls
    rw [langchainChatAux_succ_spec g reg streamCtx 0 ws last sent calls (hg ws),
        langchainChatAux_zero]
    simp
  | succ n ih =>
    intro ws last sent calls
    rw [langchainChatAux_succ_spec g reg streamCtx (n + 1) ws last sent calls (hg ws)]
    have hstep : ws ++ langchainTurns reg (freshIterationCtx streamCtx) (g ws).2 =
        stepLangchain g reg streamCtx ws := rfl
    rw [hstep, ih (stepLangchain g reg streamCtx ws) (some (g ws).2) sent (calls + 1),
        Function.iterate_succ_apply]
    congr 2
    omega

/-- C3: for a backend whose every response carries at least one tool
call, `ChatWithTools` terminates after exactly the configured iteration
budget of backend calls (10 for the Anthropic loop, 8 for the LangChain
loop) and returns the last received backend response together with the
distinct max-iterations error. -/
theorem chatWithTools_budget_exhaustion
    (f : List Message → ClaudeResponse)
    (g : List Message → List String × LangChainResponse)
    (reg : Registry) (sctx : Option StreamingContext) (messages : List Message)
    (hf : ∀ ws, (f ws).ToolUses ≠ [])
    (hg : ∀ ws, (g ws).2.FunctionCalls ≠ []) :
    anthropicChatWithTools (fun w => Except.ok (f w)) reg sctx messages =
      (ChatOutcome.exhausted
        (some (f ((stepAnthropic f reg sctx)^[anthropicMaxIterations - 1] messages)))
        "max iterations reached (10) while resolving tools", anthropicMaxIterations) ∧
    langchainChatWithTools (fun w => ((g w).1, Except.ok (g w).2)) reg sctx messages =
      (ChatOutcome.exhausted
        (some ((g ((stepLangchain g reg sctx)^[langchainMaxIterations - 1] messages)).2))
        "max iterations reached (8) while resolving tools", [], langchainMaxIterations) := by
  constructor
  · exact anthropicChatAux_exhausts f reg sctx hf 9 messages none 0
  · exact langchainChatAux_exhausts g reg sctx hg 7 messages none [] 0

/-- Witness for the budget-exhaustion theorem: constant backends that
always request one tool call. -/
theorem chatWithTools_budget_exhaustion_witness :
    anthropicChatWithTools
      (fun _ => Except.ok { ToolUses := [{ ID := "t1", Name := "good", Input := [("x", JVal.vnum 1)] }] })
      regW none [] =
      (ChatOutcome.exhausted
        (some { ToolUses := [{ ID := "t1", Name := "good", Input := [("x", JVal.vnum 1)] }] })
        "max iterations reached (10) while resolving tools", 10) ∧
    langchainChatWithTools
      (fun _ => (["chunk"], Except.ok { FunctionCalls := [{ Name := "good", Arguments := [("x", JVal.vnum 1)] }] }))
      regW none [] =
      (ChatOutcome.exhausted
        (some { FunctionCalls := [{ Name := "good", Arguments := [("x", JVal.vnum 1)] }] })
        "max iterations reached (8) while resolving tools", [], 8) :=
  chatWithTools_budget_exhaustion
    (fun _ => { ToolUses := [{ ID := "t1", Name := "good", Input := [("x", JVal.vnum 1)] }] })
    (fun _ => (["chunk"], { FunctionCalls := [{ Name := "good", Arguments := [("x", JVal.vnum 1)] }] }))
    regW none []
    (fun _ => by simp)
    (fun _ => by simp)

/-! ### Streaming buffer discard / flush (LangChain loop) -/

theorem langchainChatAux_converges (g : List Message → List String × LangChainResponse)
    (reg : Registry) (sc : StreamingContext) (hclient : sc.hasClient = true) :
    ∀ k fuel ws last sent calls, k < fuel →
      (∀ i, i < k → (g ((stepLangchain g reg (some sc))^[i] ws)).2.FunctionCalls ≠ []) →
      (g ((stepLangchain g reg (some sc))^[k] ws)).2.FunctionCalls = [] →
      langchainChatAux (fun w => ((g w).1, Except.ok (g w).2)) reg (some sc) fuel ws last sent calls =
        (ChatOutcome.converged (g ((stepLangchain g reg (some sc))^[k] ws)).2,
         sent ++ (g ((stepLangchain g reg (some sc))^[k] ws)).1, calls + k + 1) := by
  intro k
  induction k with
  | zero =>
    intro fuel ws last sent calls hfuel htools hconv
    cases fuel with
    | zero => omega
    | succ m =>
      rw [langchainChatAux_converged_spec g reg (some sc) m ws last sent calls
        (by simpa using hconv)]
      simp [isStreaming, hclient]
  | succ n ih =>
    intro fuel ws last sent calls hfuel htools hconv
    cases fuel with
    | zero => omega
    | succ m =>
      rw [langchainChatAux_succ_spec g reg (some sc) m ws last sent calls
        (by simpa using htools 0 (by omega))]
      have hstep : ws ++ langchainTurns reg (freshIterationCtx (some sc)) (g ws).2 =
          stepLangchain g reg (some sc) ws := rfl
      rw [hstep]
      have htools' : ∀ i, i < n →
          (g ((stepLangchain g reg (some sc))^[i] (stepLangchain g reg (some sc) ws))).2.FunctionCalls ≠ [] := by
        intro i hi
        rw [← Function.iterate_succ_apply]
        exact htools (i + 1) (by omega)
      have hconv' :
          (g ((stepLangchain g reg (some sc))^[n] (stepLangchain g reg (some sc) ws))).2.FunctionCalls = [] := by
        rw [← Function.iterate_succ_apply]
        exact hconv
      rw [ih m (stepLangchain g reg (some sc) ws) (some (g ws).2) sent (calls + 1)
        (by omega) htools' hconv']
      rw [Function.iterate_succ_apply]
      congr 2
      omega

/-- C2 (amended): in the LangChain orchestration loop driving a
streaming call, chunks emitted during iterations that end with tool
calls are never delivered; the final convergent iteration's chunks are
delivered to the client in their original order; and each iteration
starts from a fresh empty buffer, so the delivered log is exactly the
final iteration's chunk list. -/
theorem langchain_stream_discard_and_flush
    (g : List Message → List String × LangChainResponse)
    (reg : Registry) (sc : StreamingContext) (messages : List Message) (k : Nat)
    (hclient : sc.hasClient = true)
    (hk : k < langchainMaxIterations)
    (htools : ∀ i, i < k →
      (g ((stepLangchain g reg (some sc))^[i] messages)).2.FunctionCalls ≠ [])
    (hconv : (g ((stepLangchain g reg (some sc))^[k] messages)).2.FunctionCalls = []) :
    langchainChatWithTools (fun w => ((g w).1, Except.ok (g w).2)) reg (some sc) messages =
      (ChatOutcome.converged (g ((stepLangchain g reg (some sc))^[k] messages)).2,
       (g ((stepLangchain g reg (some sc))^[k] messages)).1, k + 1) := by
  have h := langchainChatAux_converges g reg sc hclient k langchainMaxIterations
    messages none [] 0 hk htools hconv
  simpa using h

/-! ### Anthropic streaming path fixtures -/

/-- JSON-parse oracle for the fixtures: only the accumulated input
string "X" parses. -/
def parseX : String → Option JMap :=
  fun s => if s == "X" then some [("a", JVal.vnum 1)] else none

/-- First-call event stream: a text block streamed as one delta, then a
complete tool_use block for the registered tool "good". -/
def eventsFirst : List StreamEvent :=
  [{ type := "content_block_start", contentBlock := some { type := "text", index := 0 } },
   { type := "content_block_delta", delta := some { type := "text_delta", text := "hello" } },
   { type := "content_block_stop", index := 0 },
   { type := "content_block_start",
     contentBlock := some { type := "tool_use", index := 1, id := "tu1", name := "good" } },
   { type := "content_block_delta",
     delta := some { type := "input_json_delta", PartialJSON := "X" }, index := 1 },
   { type := "content_block_stop", index := 1 }]

/-- Second-call event stream: a single text delta and no tool use. -/
def eventsSecond : List StreamEvent :=
  [{ type := "content_block_delta", delta := some { type := "text_delta", text := "done" } }]

/-- A stub streaming backend: first call (empty working conversation)
answers with a tool call, second call converges. -/
def backendX : List Message → List StreamEvent :=
  fun ws => if ws.isEmpty then eventsFirst else eventsSecond

def sctxX : StreamingContext :=
  { hasClient := true, BoardId := "b1", BufferedChunks := [], ShouldStream := false }

/-- Counterexample to unconditional discard-on-tool-call: on the
Anthropic streaming path, the first iteration's response requests a
tool call, yet the chunk "hello" emitted during that iteration was
pushed to the client immediately and appears in the delivered log of
the completed run (followed by the final iteration's "done"). -/
theorem streaming_chunk_leak_counterexample :
    (streamClaudeRun parseX true eventsFirst).cr.ToolUses ≠ [] ∧
    (streamClaudeRun parseX true eventsFirst).sent = ["hello"] ∧
    anthropicChatStreamWithTools parseX backendX regW sctxX [] =
      (ChatOutcome.converged { StopReason := "", TextContent := ["done"], ToolUses := [] },
       ["hello", "done"], 2) := by
  refine ⟨by decide, by decide, by decide⟩

/-- Witness for the LangChain discard-and-flush theorem: the first call
requests a tool and emits "early"; the second call converges and emits
"late1", "late2"; only the latter are delivered, in order. -/
def gW : List Message → List String × LangChainResponse :=
  fun ws =>
    if ws.isEmpty then
      (["early"], { FunctionCalls := [{ Name := "good", Arguments := [("x", JVal.vnum 1)] }] })
    else
      (["late1", "late2"], { TextContent := ["fin"], FunctionCalls := [] })

theorem langchain_stream_discard_and_flush_witness :
    langchainChatWithTools (fun w => ((gW w).1, Except.ok (gW w).2)) regW (some sctxX) [] =
      (ChatOutcome.converged { TextContent := ["fin"], FunctionCalls := [] },
       ["late1", "late2"], 2) := by
  have h := langchain_stream_discard_and_flush gW regW sctxX [] 1 rfl
    (by simp [langchainMaxIterations])
    (fun i hi => by
      interval_cases i
      decide)
    (by decide)
  simpa using h

/-- Counterexample to a separate image turn on the Anthropic loop: the
tool-execution results of this iteration include an image result
(HasImage), yet the loop appends exactly two turns — assistant and the
structured tool-result user turn — with the image inlined inside the
tool_result content block, and no additional separate image user turn. -/
theorem image_inline_anthropic_counterexample :
    ((ExecuteTools regW
        (anthropicToolCalls { ToolUses := [{ ID := "t1", Name := "img", Input := [("b", JVal.vstr "b1")] }] })
        none).getD 0 noResult).HasImage = true ∧
    anthropicTurns regW none { ToolUses := [{ ID := "t1", Name := "img", Input := [("b", JVal.vstr "b1")] }] } =
      [{ Role := "assistant",
         Content := MessageContent.blocks [ContentBlock.toolUse "t1" "img" [("b", JVal.vstr "b1")]] },
       { Role := "user",
         Content := MessageContent.blocks
           [ContentBlock.toolResult "t1"
             (ToolResultContent.textAndImage "Board image for boardId: b1" "image/jpeg" "IMG64")
             false] }] := by
  refine ⟨by decide, by decide⟩

/-! ### Image results travel as a separate user turn (LangChain/Gemini) -/

theorem execOneCall_hasImage_shape (reg : Registry) (tc : ToolCall)
    (h : (execOneCall reg tc).HasImage = true) :
    (execOneCall reg tc).Error = none ∧
    ∃ img, (execOneCall reg tc).ImageData = some img := by
  by_cases h1 : tc.Input.isEmpty
  · simp [execOneCall, h1] at h
  · cases h2 : reg tc.Name with
    | none => simp [execOneCall, h1, h2] at h
    | some handler =>
      cases h3 : handler tc.Input with
      | panicked r => simp [execOneCall, h1, h2, h3] at h
      | err e => simp [execOneCall, h1, h2, h3] at h
      | ok v =>
        cases v with
        | scalar x => simp [execOneCall, h1, h2, h3] at h
        | omap m =>
          by_cases h4 : m.getBool "_imageContent"
          · refine ⟨?_, ?_⟩ <;> simp [execOneCall, h1, h2, h3, h4]
          · simp [execOneCall, h1, h2, h3, h4] at h

theorem formatLangChain_fst_shape (r : ToolExecutionResult) :
    ∃ response, (FormatLangChainToolResult r).1 =
      ContentBlock.functionResponse r.ToolName response := by
  unfold FormatLangChainToolResult
  repeat' split
  all_goals exact ⟨_, rfl⟩

theorem formatGemini_fst_shape (r : ToolExecutionResult) :
    ∃ response, (FormatGeminiToolResult r).1 =
      ContentBlock.functionResponse r.ToolName response := by
  unfold FormatGeminiToolResult
  repeat' split
  all_goals exact ⟨_, rfl⟩

theorem formatLangChain_snd_of_image (r : ToolExecutionResult) (img : ImageContent)
    (he : r.Error = none) (hi : r.HasImage = true) (hd : r.ImageData = some img) :
    (FormatLangChainToolResult r).2 =
      [ContentBlock.text ("Board image for boardId: " ++ img.BoardID),
       ContentBlock.image img.MediaType img.ImageBase64] := by
  simp [FormatLangChainToolResult, he, hi, hd]

theorem formatGemini_snd_of_image (r : ToolExecutionResult) (img : ImageContent)
    (he : r.Error = none) (hi : r.HasImage = true) (hd : r.ImageData = some img) :
    (FormatGeminiToolResult r).2 =
      [ContentBlock.text ("Board image for boardId: " ++ img.BoardID),
       ContentBlock.image img.MediaType img.ImageBase64] := by
  simp [FormatGeminiToolResult, he, hi, hd]

/-- C6 (amended): in the LangChain and Gemini orchestration loops, an
iteration whose tool-execution results include an image result appends
the image content blocks as an additional, separate user turn placed
after the user turn carrying the structured function results, and the
structured results themselves are all plain function_response blocks
(the image is not inlined there).  The Anthropic loop instead inlines
the image inside the tool_result content and appends no separate image
turn. -/
theorem image_separate_user_turn
    (reg : Registry) (sctx : Option StreamingContext)
    (lr : LangChainResponse) (gr : GeminiResponse)
    (hL : ∃ r ∈ ExecuteTools reg (langchainToolCalls lr) sctx, r.HasImage = true)
    (hG : ∃ r ∈ ExecuteTools reg (geminiToolCalls gr) none, r.HasImage = true) :
    langchainTurns reg sctx lr =
      [{ Role := "assistant", Content := MessageContent.blocks
          (lr.TextContent.map ContentBlock.text ++
           lr.FunctionCalls.map (fun fc => ContentBlock.functionCall fc.Name fc.Arguments)) },
       { Role := "user", Content := MessageContent.blocks
          (((ExecuteTools reg (langchainToolCalls lr) sctx).map FormatLangChainToolResult).map Prod.fst) },
       { Role := "user", Content := MessageContent.blocks
          ((((ExecuteTools reg (langchainToolCalls lr) sctx).map FormatLangChainToolResult).map Prod.snd).flatten) }] ∧
    (∀ p ∈ (ExecuteTools reg (langchainToolCalls lr) sctx).map FormatLangChainToolResult,
        ∃ name response, p.1 = ContentBlock.functionResponse name response) ∧
    geminiTurns reg gr =
      [{ Role := "assistant", Content := MessageContent.blocks
          (gr.TextContent.map ContentBlock.text ++
           gr.FunctionCalls.map (fun fc => ContentBlock.functionCall fc.Name fc.Arguments)) },
       { Role := "user", Content := MessageContent.blocks
          (((ExecuteTools reg (geminiToolCalls gr) none).map FormatGeminiToolResult).map Prod.fst) },
       { Role := "user", Content := MessageContent.blocks
          ((((ExecuteTools reg (geminiToolCalls gr) none).map FormatGeminiToolResult).map Prod.snd).flatten) }] ∧
    (∀ p ∈ (ExecuteTools reg (geminiToolCalls gr) none).map FormatGeminiToolResult,
        ∃ name response, p.1 = ContentBlock.functionResponse name response) := by
  obtain ⟨rL, hrLmem, hriL⟩ := hL
  simp only [ExecuteTools] at hrLmem
  obtain ⟨tcL, htcL, rfl⟩ := List.mem_map.mp hrLmem
  obtain ⟨hEL, imgL, hDL⟩ := execOneCall_hasImage_shape reg tcL hriL
  have hmemL : ContentBlock.text ("Board image for boardId: " ++ imgL.BoardID) ∈
      (((ExecuteTools reg (langchainToolCalls lr) sctx).map FormatLangChainToolResult).map Prod.snd).flatten := by
    rw [List.mem_flatten]
    refine ⟨(FormatLangChainToolResult (execOneCall reg tcL)).2, ?_, ?_⟩
    · exact List.mem_map.mpr ⟨FormatLangChainToolResult (execOneCall reg tcL),
        List.mem_map.mpr ⟨execOneCall reg tcL,
          by simp only [ExecuteTools]; exact List.mem_map.mpr ⟨tcL, htcL, rfl⟩, rfl⟩, rfl⟩
    · rw [formatLangChain_snd_of_image _ imgL hEL hriL hDL]
      exact List.mem_cons_self _ _
  have hneL := isEmpty_false_of_ne_nil (List.ne_nil_of_mem hmemL)
  obtain ⟨rG, hrGmem, hriG⟩ := hG
  simp only [ExecuteTools] at hrGmem
  obtain ⟨tcG, htcG, rfl⟩ := List.mem_map.mp hrGmem
  obtain ⟨hEG, imgG, hDG⟩ := execOneCall_hasImage_shape reg tcG hriG
  have hmemG : ContentBlock.text ("Board image for boardId: " ++ imgG.BoardID) ∈
      (((ExecuteTools reg (geminiToolCalls gr) none).map FormatGeminiToolResult).map Prod.snd).flatten := by
    rw [List.mem_flatten]
    refine ⟨(FormatGeminiToolResult (execOneCall reg tcG)).2, ?_, ?_⟩
    · exact List.mem_map.mpr ⟨FormatGeminiToolResult (execOneCall reg tcG),
        List.mem_map.mpr ⟨execOneCall reg tcG,
          by simp only [ExecuteTools]; exact List.mem_map.mpr ⟨tcG, htcG, rfl⟩, rfl⟩, rfl⟩
    · rw [formatGemini_snd_of_image _ imgG hEG hriG hDG]
      exact List.mem_cons_self _ _
  have hneG := isEmpty_false_of_ne_nil (List.ne_nil_of_mem hmemG)
  refine ⟨?_, ?_, ?_, ?_⟩
  · simp only [langchainTurns, hneL, Bool.false_eq_true, if_false]
    rfl
  · intro p hp
    obtain ⟨r, _, rfl⟩ := List.mem_map.mp hp
    obtain ⟨resp, hresp⟩ := formatLangChain_fst_shape r
    exact ⟨r.ToolName, resp, hresp⟩
  · simp only [geminiTurns, hneG, Bool.false_eq_true, if_false]
    rfl
  · intro p hp
    obtain ⟨r, _, rfl⟩ := List.mem_map.mp hp
    obtain ⟨resp, hresp⟩ := formatGemini_fst_shape r
    exact ⟨r.ToolName, resp, hresp⟩

def lrImg : LangChainResponse :=
  { FunctionCalls := [{ Name := "img", Arguments := [("b", JVal.vstr "b1")] }] }

def grImg : GeminiResponse :=
  { FunctionCalls := [{ Name := "img", Arguments := [("b", JVal.vstr "b1")] }] }

/-- Witness for the separate-image-turn theorem at a concrete
iteration: three turns, the third being the separate image user turn. -/
theorem image_separate_user_turn_witness :
    langchainTurns regW none lrImg =
      [{ Role := "assistant",
         Content := MessageContent.blocks [ContentBlock.functionCall "img" [("b", JVal.vstr "b1")]] },
       { Role := "user",
         Content := MessageContent.blocks
           [ContentBlock.functionResponse "img"
             "\x7b\"boardId\":\"b1\",\"format\":\"jpeg\",\"message\":\"Board image retrieved for boardId: b1\"\x7d"] },
       { Role := "user",
         Content := MessageContent.blocks
           [ContentBlock.text "Board image for boardId: b1",
            ContentBlock.image "image/jpeg" "IMG64"] }] ∧
    geminiTurns regW grImg =
      [{ Role := "assistant",
         Content := MessageContent.blocks [ContentBlock.functionCall "img" [("b", JVal.vstr "b1")]] },
       { Role := "user",
         Content := MessageContent.blocks
           [ContentBlock.functionResponse "img"
             "\x7b\"boardId\":\"b1\",\"format\":\"jpeg\",\"message\":\"Board image retrieved for boardId: b1\"\x7d"] },
       { Role := "user",
         Content := MessageContent.blocks
           [ContentBlock.text "Board image for boardId: b1",
            ContentBlock.image "image/jpeg" "IMG64"] }] := by
  have H := image_separate_user_turn regW none lrImg grImg
    ⟨execOneCall regW { ID := "", Name := "img", Input := [("b", JVal.vstr "b1")], Provider := "langchain" },
      by decide, by decide⟩
    ⟨execOneCall regW { ID := "", Name := "img", Input := [("b", JVal.vstr "b1")], Provider := "gemini" },
      by decide, by decide⟩
  refine ⟨?_, ?_⟩
  · rw [H.1]; decide
  · rw [H.2.2.1]; decide

/-! ### Streamed tool_use blocks carry non-empty ID and Name -/

/-- Every tool use recorded in the response so far has a non-empty call
ID and tool name. -/
def goodToolUses (s : StreamState) : Prop :=
  ∀ tu ∈ s.cr.ToolUses, tu.ID ≠ "" ∧ tu.Name ≠ ""

theorem applyAccumulatedInput_ID (parse : String → Option JMap)
    (ibs : List (Int × String)) (idx : Int) (tu : ToolUse) :
    (applyAccumulatedInput parse ibs idx tu).ID = tu.ID := by
  unfold applyAccumulatedInput
  split
  · split
    · split <;> rfl
    · rfl
  · rfl

theorem applyAccumulatedInput_Name (parse : String → Option JMap)
    (ibs : List (Int × String)) (idx : Int) (tu : ToolUse) :
    (applyAccumulatedInput parse ibs idx tu).Name = tu.Name := by
  unfold applyAccumulatedInput
  split
  · split
    · split <;> rfl
    · rfl
  · rfl

theorem finalizeIndices_good (parse : String → Option JMap) :
    ∀ (idxs : List Int) (s : StreamState), goodToolUses s →
      goodToolUses (finalizeIndices parse s idxs) := by
  intro idxs
  induction idxs with
  | nil => intro s h; exact h
  | cons idx rest ih =>
    intro s h
    rw [finalizeIndices]
    cases halk : alookup s.builders idx with
    | none =>
      dsimp only
      exact ih s h
    | some tu =>
      dsimp only
      apply ih
      by_cases hg : ((applyAccumulatedInput parse s.inputBuilders idx tu).ID != "" &&
          (applyAccumulatedInput parse s.inputBuilders idx tu).Name != "") = true
      · rw [if_pos hg]
        intro x hx
        rcases List.mem_append.mp hx with hx | hx
        · exact h x hx
        · rcases List.mem_singleton.mp hx with rfl
          simp only [Bool.and_eq_true, bne_iff_ne, ne_eq] at hg
          exact hg
      · rw [if_neg hg]
        exact h

theorem messageStopFinalize_good (parse : String → Option JMap) :
    ∀ (bs : List (Int × ToolUse)) (s : StreamState), goodToolUses s →
      goodToolUses (messageStopFinalize parse s bs) := by
  intro bs
  induction bs with
  | nil => intro s h; exact h
  | cons p rest ih =>
    intro s h
    obtain ⟨idx, tu⟩ := p
    rw [messageStopFinalize]
    by_cases hg : (tu.ID != "" && tu.Name != "") = true
    · rw [if_pos hg]
      dsimp only
      apply ih
      by_cases hdup : (s.cr.ToolUses.any
          (fun existing => existing.ID == (applyAccumulatedInput parse s.inputBuilders idx tu).ID)) = true
      · rw [if_pos hdup]
        exact h
      · rw [if_neg hdup]
        intro x hx
        rcases List.mem_append.mp hx with hx | hx
        · exact h x hx
        · rcases List.mem_singleton.mp hx with rfl
          simp only [Bool.and_eq_true, bne_iff_ne, ne_eq] at hg
          rw [applyAccumulatedInput_ID, applyAccumulatedInput_Name]
          exact hg
    · rw [if_neg hg]
      exact ih s h

theorem endStreamFinalize_good (parse : String → Option JMap) :
    ∀ (bs : List (Int × ToolUse)) (s : StreamState), goodToolUses s →
      goodToolUses (endStreamFinalize parse s bs) := by
  intro bs
  induction bs with
  | nil => intro s h; exact h
  | cons p rest ih =>
    intro s h
    obtain ⟨idx, tu⟩ := p
    rw [endStreamFinalize]
    dsimp only
    apply ih
    by_cases hg : ((applyAccumulatedInput parse s.inputBuilders idx tu).ID != "" &&
        (applyAccumulatedInput parse s.inputBuilders idx tu).Name != "") = true
    · rw [if_pos hg]
      intro x hx
      rcases List.mem_append.mp hx with hx | hx
      · exact h x hx
      · rcases List.mem_singleton.mp hx with rfl
        simp only [Bool.and_eq_true, bne_iff_ne, ne_eq] at hg
        exact hg
    · rw [if_neg hg]
      exact h

theorem processEvent_good (parse : String → Option JMap) (hasClient : Bool)
    (s : StreamState) (ev : StreamEvent)
    (hev : ev.type ≠ "content_block") (h : goodToolUses s) :
    goodToolUses (processEvent parse hasClient s ev) := by
  unfold processEvent
  by_cases h1 : (ev.type == "content_block_delta") = true
  · rw [if_pos h1]
    repeat' first
      | split
      | dsimp only
    all_goals exact h
  · rw [if_neg h1]
    by_cases h2 : (ev.type == "content_block_stop") = true
    · rw [if_pos h2]
      dsimp only
      apply finalizeIndices_good
      split
      · intro x hx
        exact h x hx
      · exact h
    · rw [if_neg h2]
      by_cases h3 : (ev.type == "content_block_start") = true
      · rw [if_pos h3]
        repeat' first
          | split
          | dsimp only
        all_goals exact h
      · rw [if_neg h3]
        by_cases h4 : (ev.type == "message_stop") = true
        · rw [if_pos h4]
          dsimp only
          have hpre : goodToolUses
              (if ev.stopReason != "" then
                { s with cr := { s.cr with StopReason := ev.stopReason } } else s) := by
            split
            · intro x hx; exact h x hx
            · exact h
          intro x hx
          exact messageStopFinalize_good parse _ _ hpre x hx
        · rw [if_neg h4]
          by_cases h5 : (ev.type == "message_delta") = true
          · rw [if_pos h5]
            split
            · intro x hx; exact h x hx
            · exact h
          · rw [if_neg h5]
            have h6 : (ev.type == "content_block") = false := by
              simpa using hev
            rw [h6]
            simp only [Bool.false_eq_true, if_false]
            exact h

theorem fallbackText_good (t : StreamState) (h : goodToolUses t) :
    goodToolUses
      (if t.accumulated != "" && t.cr.TextContent.isEmpty then
        { t with cr := { t.cr with TextContent := [t.accumulated] } } else t) := by
  split
  · intro x hx; exact h x hx
  · exact h

theorem finalizeStream_good (parse : String → Option JMap)
    (s : StreamState) (h : goodToolUses s) :
    goodToolUses (finalizeStream parse s) := by
  have hpre : goodToolUses
      (if s.currentText != "" then
        { s with cr := { s.cr with TextContent := s.cr.TextContent ++ [s.currentText] } }
       else s) := by
    split
    · intro x hx; exact h x hx
    · exact h
  unfold finalizeStream
  dsimp only
  exact fallbackText_good _ (endStreamFinalize_good parse _ _ hpre)

theorem foldl_processEvent_good (parse : String → Option JMap) (hasClient : Bool) :
    ∀ (events : List StreamEvent) (s : StreamState),
      (∀ ev ∈ events, ev.type ≠ "content_block") → goodToolUses s →
      goodToolUses (events.foldl (processEvent parse hasClient) s) := by
  intro events
  induction events with
  | nil => intro s _ h; exact h
  | cons ev rest ih =>
    intro s hev h
    exact ih _ (fun e he => hev e (List.mem_cons_of_mem ev he))
      (processEvent_good parse hasClient s ev (hev ev (List.mem_cons_self ev rest)) h)

/-- C10: a tool_use block assembled incrementally from streaming events
reaches the response's ToolUses only when both its call ID and its tool
name are non-empty: over any event stream without full `content_block`
events, every tool use in the assembled response has a non-empty ID and
a non-empty Name (blocks missing either field are silently dropped on
the content_block_stop, message_stop and end-of-stream paths). -/
theorem streamClaude_toolUses_tagged (parse : String → Option JMap)
    (hasClient : Bool) (events : List StreamEvent)
    (hev : ∀ ev ∈ events, ev.type ≠ "content_block") :
    ∀ tu ∈ (streamClaudeRun parse hasClient events).cr.ToolUses,
      tu.ID ≠ "" ∧ tu.Name ≠ "" := by
  exact finalizeStream_good parse _
    (foldl_processEvent_good parse hasClient events {} hev (by intro x hx; cases hx))

/-- Events whose tool_use block never receives a name: the block is
dropped from the assembled response. -/
def eventsNoName : List StreamEvent :=
  [{ type := "content_block_start",
     contentBlock := some { type := "tool_use", index := 0, id := "tu9" } },
   { type := "content_block_delta",
     delta := some { type := "input_json_delta", PartialJSON := "X" }, index := 0 },
   { type := "content_block_stop", index := 0 },
   { type := "content_block_start",
     contentBlock := some { type := "tool_use", index := 1, id := "tu1", name := "good" } },
   { type := "content_block_stop", index := 1 },
   { type := "message_stop", stopReason := "tool_use" }]

/-- Witness for the tagging theorem: the nameless block `tu9` is
omitted, the complete block `tu1` is kept, and the kept block's fields
are non-empty as the theorem states. -/
theorem streamClaude_toolUses_tagged_witness :
    (streamClaudeRun parseX true eventsNoName).cr.ToolUses =
      [{ ID := "tu1", Name := "good", Input := [] }] ∧
    ({ ID := "tu1", Name := "good", Input := [] } : ToolUse).ID ≠ "" ∧
    ({ ID := "tu1", Name := "good", Input := [] } : ToolUse).Name ≠ "" := by
  refine ⟨by decide, ?_, ?_⟩
  · have H := streamClaude_toolUses_tagged parseX true eventsNoName (by decide)
      { ID := "tu1", Name := "good", Input := [] } (by decide)
    exact H.1
  · have H := streamClaude_toolUses_tagged parseX true eventsNoName (by decide)
      { ID := "tu1", Name := "good", Input := [] } (by decide)
    exact H.2

end Melina
